import Mathlib

/-
A shallow embedding of the note-editing state machine of
`src/src/App.tsx` (the `App` component): the local note cache, the
selection / draft / dirty / saving state, the three state-driven
effects (selection-consistency, dirty-tracking, debounced auto-save)
and the user-action handlers.  Store calls (Firestore `updateDoc`,
`addDoc`, `deleteDoc`) are recorded in a log; their success and the
values returned by `Timestamp.now()` are supplied by an explicit
oracle.  Time is modelled in milliseconds; the auto-save timer is the
pending `setTimeout` with its remaining delay, re-armed exactly when
the React dependency tuple of the auto-save effect changes.
-/

namespace Notepad

/-- A note document as held in the local cache (App.tsx lines 21-28).
`createdAt`, `lastModified` and `userId` are optional fields in the
source interface; timestamps are modelled as natural numbers. -/
structure Note where
  id : String
  title : String
  content : String
  createdAt : Option Nat
  lastModified : Option Nat
  userId : Option String
deriving DecidableEq

/-- The React dependency tuple of the auto-save effect (App.tsx line 156,
with `saveCurrentNote`'s own dependencies from line 146 inlined):
`[isDirty, selectedNote, currentTitle, currentContent, isSaving]`.
The effect re-runs (cancelling and possibly re-arming the timer)
exactly when this tuple changes. -/
structure AutosaveDeps where
  isDirty : Bool
  selectedNote : Option Note
  currentTitle : String
  currentContent : String
  isSaving : Bool
deriving DecidableEq

/-- The state of the `App` component (App.tsx lines 31-41), together
with the pending auto-save timeout (`timer`, remaining milliseconds)
and the last observed dependency tuple of the auto-save effect. -/
structure AppState where
  currentUser : Option String
  authLoading : Bool
  notes : List Note
  selectedNote : Option Note
  currentTitle : String
  currentContent : String
  isLoading : Bool
  isSaving : Bool
  isDirty : Bool
  showDeleteModal : Bool
  noteToDelete : Option String
  timer : Option Nat
  timerDeps : AutosaveDeps
deriving DecidableEq

/-- A call issued to the note store (Firestore): `updateDoc` with the
draft fields and a fresh timestamp, `addDoc` with the new note data,
or `deleteDoc` by id. -/
inductive StoreCall where
  | update (id title content : String) (lastModified : Nat)
  | create (title content : String) (createdAt lastModified : Nat) (userId : String)
  | delete (id : String)
deriving DecidableEq

/-- Environment oracle: `oks` yields the success of each store write in
order (empty list means every call succeeds), `times` yields the value
of each `Timestamp.now()` call in order (empty list means 0). -/
structure Oracle where
  oks : List Bool
  times : List Nat
deriving DecidableEq

def Oracle.takeOk : Oracle → Bool × Oracle
  | ⟨[], ts⟩ => (true, ⟨[], ts⟩)
  | ⟨b :: bs, ts⟩ => (b, ⟨bs, ts⟩)

def Oracle.takeTime : Oracle → Nat × Oracle
  | ⟨bs, []⟩ => (0, ⟨bs, []⟩)
  | ⟨bs, t :: ts⟩ => (t, ⟨bs, ts⟩)

/-- Result of running a handler: the new component state, the remaining
oracle, and the store calls issued (in order). -/
structure StepOut where
  state : AppState
  oracle : Oracle
  calls : List StoreCall
deriving DecidableEq

/-- `notes.find(note => note.id === id)` (App.tsx lines 103, 115). -/
def findNote (notes : List Note) (id : String) : Option Note :=
  notes.find? (fun n => n.id == id)

/-- Selection-consistency effect (App.tsx lines 102-110): if the
selected note's id is no longer present in the cache, clear the
selection, the form fields and the dirty flag. -/
def effectConsistency (s : AppState) : AppState :=
  match s.selectedNote with
  | some sel =>
    if (findNote s.notes sel.id).isNone then
      { s with selectedNote := none, currentTitle := "", currentContent := "", isDirty := false }
    else s
  | none => s

/-- Dirty-tracking effect (App.tsx lines 113-126): with a selected note
whose cache entry is found, the dirty flag is set to whether the draft
title or content differs from that entry; with no selection the dirty
flag is cleared; with a selection whose entry is missing, nothing is
set (the selection-consistency effect handles that case). -/
def effectDirty (s : AppState) : AppState :=
  match s.selectedNote with
  | some sel =>
    match findNote s.notes sel.id with
    | some orig =>
      if s.currentTitle ≠ orig.title ∨ s.currentContent ≠ orig.content then
        { s with isDirty := true }
      else
        { s with isDirty := false }
    | none => s
  | none => { s with isDirty := false }

/-- The dependency tuple the auto-save effect observes in a state. -/
def autosaveDeps (s : AppState) : AutosaveDeps :=
  ⟨s.isDirty, s.selectedNote, s.currentTitle, s.currentContent, s.isSaving⟩

/-- The debounce window: 1.5 seconds (App.tsx line 153). -/
def debounceMs : Nat := 1500

/-- Auto-save effect (App.tsx lines 149-156): when its dependency tuple
changed since it last ran, the cleanup clears any pending timeout and,
if the draft is dirty, a note is selected, and no save is in flight, a
fresh 1.5-second timeout is armed; otherwise the pending timeout (its
countdown) is left untouched. -/
def effectAutosave (s : AppState) : AppState :=
  if autosaveDeps s = s.timerDeps then s
  else
    { s with
      timerDeps := autosaveDeps s,
      timer :=
        if s.isDirty && s.selectedNote.isSome && !s.isSaving then some debounceMs
        else none }

/-- One pass of the state-driven effects, in source order: lines
102-110, then 113-126, then 149-156.  Run after every state change, as
React runs effects after each render. -/
def runEffects (s : AppState) : AppState :=
  effectAutosave (effectDirty (effectConsistency s))

/-- The cache update of a successful save (App.tsx line 140):
`prev.map(n => n.id === id ? { ...n, ...updatedNoteData } : n)`. -/
def applySave (noteId newTitle newContent : String) (t : Nat) (notes : List Note) : List Note :=
  notes.map fun n =>
    if n.id == noteId then { n with title := newTitle, content := newContent, lastModified := some t }
    else n

/-- `saveCurrentNote` (App.tsx lines 128-146): no-op unless a note is
selected and the draft is dirty; otherwise enter saving, read
`Timestamp.now()`, issue `updateDoc` with the draft title/content and
the timestamp; on success map the cache entry and clear the dirty flag;
on failure only log; in both cases leave the saving state.  Effects run
at the render after `setIsSaving(true)` (the `await` boundary) and at
the final render. -/
def saveCurrentNote (o : Oracle) (s : AppState) : StepOut :=
  match s.selectedNote with
  | none => ⟨s, o, []⟩
  | some sel =>
    if s.isDirty then
      let s1 := runEffects { s with isSaving := true }
      let (t, o1) := o.takeTime
      let (ok, o2) := o1.takeOk
      let call := StoreCall.update sel.id s.currentTitle s.currentContent t
      if ok then
        let s2 := { s1 with
          notes := applySave sel.id s.currentTitle s.currentContent t s1.notes,
          isDirty := false, isSaving := false }
        ⟨runEffects s2, o2, [call]⟩
      else
        ⟨runEffects { s1 with isSaving := false }, o2, [call]⟩
    else ⟨s, o, []⟩

/-- The flush at the head of `handleSelectNote` (App.tsx lines 159-161):
`if (selectedNote && selectedNote.id !== noteToSelect.id && isDirty)
await saveCurrentNote()`. -/
def flushIfSwitching (o : Oracle) (noteToSelect : Note) (s : AppState) : StepOut :=
  match s.selectedNote with
  | some sel =>
    if sel.id != noteToSelect.id && s.isDirty then saveCurrentNote o s else ⟨s, o, []⟩
  | none => ⟨s, o, []⟩

/-- `handleSelectNote` (App.tsx lines 158-166): if a note is selected,
its id differs from the target's id, and the draft is dirty, await a
flush save first; then load the target's title and content into the
draft and clear the dirty flag. -/
def handleSelectNote (o : Oracle) (noteToSelect : Note) (s : AppState) : StepOut :=
  let flush : StepOut := flushIfSwitching o noteToSelect s
  ⟨runEffects { flush.state with
      selectedNote := some noteToSelect,
      currentTitle := noteToSelect.title,
      currentContent := noteToSelect.content,
      isDirty := false },
    flush.oracle, flush.calls⟩

/-- The flush at the head of `handleAddNewNote` (App.tsx lines
169-171): `if (selectedNote && isDirty) await saveCurrentNote()`. -/
def flushIfDirty (o : Oracle) (s : AppState) : StepOut :=
  match s.selectedNote with
  | some _ => if s.isDirty then saveCurrentNote o s else ⟨s, o, []⟩
  | none => ⟨s, o, []⟩

/-- `handleAddNewNote` (App.tsx lines 168-195): flush the dirty draft
first; abort if no user is logged in (the check and the `userId` both
read the invoking render's `currentUser`); build the new note data with
two `Timestamp.now()` reads (`createdAt` then `lastModified`), enter
saving, issue `addDoc`; on success prepend the new note to the cache
and call `handleSelectNote(newNote)` (line 190).  That call is the
closure from the invoking render, so its switch guard (line 159) and
the nested `saveCurrentNote` guard and payload (lines 129, 133-138)
read the render's `selectedNote`, `isDirty`, `currentTitle` and
`currentContent` — the state from BEFORE the flush.  A Dirty entry
state therefore issues a second update of the old note after the
create, with a fresh clock read, against the current cache (the
functional `setNotes` updates of lines 140 and 189 act on live state);
the outer `setIsSaving(false)` (line 194) runs while that nested save
is still awaiting, so it lands in the same render as the prepend.
Afterwards the new note is loaded into the draft.  With a Clean entry
state the nested guard fails and the new note is loaded directly,
followed by the outer `setIsSaving(false)` render. -/
def handleAddNewNote (o : Oracle) (newId : String) (s : AppState) : StepOut :=
  let flush : StepOut := flushIfDirty o s
  match s.currentUser with
  | none => flush
  | some uid =>
    let (t1, o1) := flush.oracle.takeTime
    let (t2, o2) := o1.takeTime
    let s1 := runEffects { flush.state with isSaving := true }
    let (ok, o3) := o2.takeOk
    let call := StoreCall.create "Untitled Note" "" t1 t2 uid
    if ok then
      let newNote : Note := ⟨newId, "Untitled Note", "", some t1, some t2, some uid⟩
      let s2 := { s1 with notes := newNote :: s1.notes }
      match s.selectedNote with
      | some sel =>
        if sel.id != newId && s.isDirty then
          let s3 := runEffects { s2 with isSaving := false }
          let (t3, o4) := o3.takeTime
          let (ok2, o5) := o4.takeOk
          let call2 := StoreCall.update sel.id s.currentTitle s.currentContent t3
          let s4 :=
            if ok2 then
              runEffects { s3 with
                notes := applySave sel.id s.currentTitle s.currentContent t3 s3.notes,
                isDirty := false, isSaving := false }
            else runEffects { s3 with isSaving := false }
          ⟨runEffects { s4 with
              selectedNote := some newNote,
              currentTitle := newNote.title,
              currentContent := newNote.content,
              isDirty := false },
            o5, flush.calls ++ [call, call2]⟩
        else
          let selr := runEffects { s2 with
            selectedNote := some newNote,
            currentTitle := newNote.title,
            currentContent := newNote.content,
            isDirty := false }
          ⟨runEffects { selr with isSaving := false }, o3, flush.calls ++ [call]⟩
      | none =>
        let selr := runEffects { s2 with
          selectedNote := some newNote,
          currentTitle := newNote.title,
          currentContent := newNote.content,
          isDirty := false }
        ⟨runEffects { selr with isSaving := false }, o3, flush.calls ++ [call]⟩
    else
      ⟨runEffects { s1 with isSaving := false }, o3, flush.calls ++ [call]⟩

/-- `handleDeleteNote` (App.tsx lines 225-229): record the pending id
and open the confirmation modal; nothing else. -/
def handleDeleteNote (noteId : String) (s : AppState) : AppState :=
  { s with noteToDelete := some noteId, showDeleteModal := true }

/-- `handleCloseDeleteModal` (App.tsx lines 197-200): close the modal
and clear the pending id. -/
def handleCloseDeleteModal (s : AppState) : AppState :=
  { s with showDeleteModal := false, noteToDelete := none }

/-- `handleConfirmDelete` (App.tsx lines 202-223): no-op when no id is
pending; otherwise enter saving, issue `deleteDoc`; on success filter
the entry out of the cache and, if it was the selected note, clear the
selection, form fields and dirty flag; in all cases leave the saving
state and close the modal. -/
def handleConfirmDelete (o : Oracle) (s : AppState) : StepOut :=
  match s.noteToDelete with
  | none => ⟨s, o, []⟩
  | some nid =>
    let s1 := runEffects { s with isSaving := true }
    let (ok, o1) := o.takeOk
    if ok then
      let s2 := { s1 with notes := s1.notes.filter (fun n => n.id != nid) }
      let s3 :=
        match s2.selectedNote with
        | some sel =>
          if sel.id == nid then
            { s2 with selectedNote := none, currentTitle := "", currentContent := "", isDirty := false }
          else s2
        | none => s2
      ⟨runEffects (handleCloseDeleteModal { s3 with isSaving := false }), o1, [StoreCall.delete nid]⟩
    else
      ⟨runEffects (handleCloseDeleteModal { s1 with isSaving := false }), o1, [StoreCall.delete nid]⟩

/-- Logout: `signOut` succeeds and `onAuthStateChanged` fires with no
user (App.tsx lines 47-54: clear user, notes and selection), after
which the `currentUser` effect's signed-out branch runs (lines 90-98:
clear the form fields and the dirty flag). -/
def handleLogout (s : AppState) : AppState :=
  let s1 := { s with currentUser := none, authLoading := false, notes := [], selectedNote := none }
  let s2 := { s1 with isLoading := false, currentTitle := "", currentContent := "", isDirty := false }
  runEffects s2

/-- Passage of `ms` milliseconds: count the pending timeout down; when
it expires the timeout fires `saveCurrentNote` and the remaining time
keeps flowing (so a timer re-armed by the save's effects can fire again
within the same span).  `fuel` bounds the recursion; `elapse` supplies
`fuel = ms`, which suffices since every armed timer is positive. -/
def elapseGo : Nat → Oracle → Nat → AppState → StepOut
  | fuel, o, ms, s =>
    match s.timer with
    | none => ⟨s, o, []⟩
    | some r =>
      if ms < r then ⟨{ s with timer := some (r - ms) }, o, []⟩
      else
        let fired := saveCurrentNote o { s with timer := none }
        match fuel with
        | 0 => fired
        | fuel' + 1 =>
          let rest := elapseGo fuel' fired.oracle (ms - r) fired.state
          ⟨rest.state, rest.oracle, fired.calls ++ rest.calls⟩

/-- Let `ms` milliseconds pass with no user input. -/
def elapse (o : Oracle) (ms : Nat) (s : AppState) : StepOut :=
  elapseGo ms o ms s

/-- User-visible events of the component. -/
inductive Event where
  | editTitle (t : String)
  | editContent (c : String)
  | select (n : Note)
  | addNew (newId : String)
  | requestDelete (id : String)
  | confirmDelete
  | cancelDelete
  | logout
  | elapse (ms : Nat)
deriving DecidableEq

/-- A world: the component state, the environment oracle, and the log
of store calls issued so far. -/
structure World where
  state : AppState
  oracle : Oracle
  log : List StoreCall
deriving DecidableEq

def World.app (w : World) (r : StepOut) : World :=
  ⟨r.state, r.oracle, w.log ++ r.calls⟩

/-- One event step.  Edits are the `onChange` handlers of the title
input (line 309) and the CKEditor (lines 333-336); each state change is
followed by an effects pass. -/
def stepE : Event → World → World
  | .editTitle t, w => { w with state := runEffects { w.state with currentTitle := t } }
  | .editContent c, w => { w with state := runEffects { w.state with currentContent := c } }
  | .select n, w => w.app (handleSelectNote w.oracle n w.state)
  | .addNew newId, w => w.app (handleAddNewNote w.oracle newId w.state)
  | .requestDelete nid, w => { w with state := runEffects (handleDeleteNote nid w.state) }
  | .confirmDelete, w => w.app (handleConfirmDelete w.oracle w.state)
  | .cancelDelete, w => { w with state := runEffects (handleCloseDeleteModal w.state) }
  | .logout, w => { w with state := handleLogout w.state }
  | .elapse ms, w => w.app (elapse w.oracle ms w.state)

def run (w : World) (es : List Event) : World :=
  es.foldl (fun w e => stepE e w) w

def initialDeps : AutosaveDeps := ⟨false, none, "", "", false⟩

/-- State right after login and a completed `fetchNotes` (App.tsx lines
59-85): the fetched notes are in the cache, nothing is selected, the
form is empty. -/
def initialState (uid : String) (fetched : List Note) : AppState :=
  ⟨some uid, false, fetched, none, "", "", false, false, false, false, none, none, initialDeps⟩

def mkWorld (uid : String) (fetched : List Note) (o : Oracle) : World :=
  ⟨runEffects (initialState uid fetched), o, []⟩

/-- The dirty flag is correct: false with no selection, and with a
selected note whose cache entry is present it is set exactly when the
draft title or content differs from that entry. -/
def dirtyInvariant (s : AppState) : Prop :=
  (s.selectedNote = none → s.isDirty = false) ∧
  (∀ sel orig, s.selectedNote = some sel → findNote s.notes sel.id = some orig →
    (s.isDirty = true ↔ (s.currentTitle ≠ orig.title ∨ s.currentContent ≠ orig.content)))

/-- A selected note always has an entry in the local cache. -/
def selectionInvariant (s : AppState) : Prop :=
  ∀ sel, s.selectedNote = some sel → (findNote s.notes sel.id).isSome = true

/-- Both state invariants together, for the preservation proof. -/
def Good (s : AppState) : Prop :=
  dirtyInvariant s ∧ selectionInvariant s

/-- Concrete data for witnesses and counterexamples. -/
def note1 : Note := ⟨"n1", "A", "x", some 0, some 0, some "u"⟩

def note2 : Note := ⟨"n2", "C", "y", some 0, some 0, some "u"⟩

/-- Oracle on which every store call succeeds. -/
def oracleOk : Oracle := ⟨[], [10, 20, 30]⟩

/-- Oracle on which the first two store calls fail. -/
def oracleFailTwice : Oracle := ⟨[false, false], [10, 20]⟩

def world0 : World := mkWorld "u" [note1, note2] oracleOk

/-- note1 selected, clean. -/
def worldClean : World := stepE (Event.select note1) world0

/-- note1 selected, title edited to "B": dirty, debounce armed. -/
def worldDirty : World := stepE (Event.editTitle "B") worldClean

/-- Same scenario over an oracle whose first two store writes fail. -/
def worldFail : World :=
  run (mkWorld "u" [note1] oracleFailTwice) [Event.select note1, Event.editTitle "B"]

/-- A state whose selected note is missing from the cache (for the
consistency-guard claim). -/
def orphanState : AppState := { worldClean.state with notes := [] }

/-- Oracle whose clock yields the same instant twice. -/
def oracleSameTimes : Oracle := ⟨[], [7, 7]⟩

def worldSame : World := stepE (Event.select note1) (mkWorld "u" [note1, note2] oracleSameTimes)

/-! Field-preservation lemmas for the three effects. -/

theorem effectConsistency_notes (s : AppState) : (effectConsistency s).notes = s.notes := by
  unfold effectConsistency; repeat' split
  all_goals rfl

theorem effectConsistency_currentUser (s : AppState) :
    (effectConsistency s).currentUser = s.currentUser := by
  unfold effectConsistency; repeat' split
  all_goals rfl

theorem effectConsistency_isSaving (s : AppState) : (effectConsistency s).isSaving = s.isSaving := by
  unfold effectConsistency; repeat' split
  all_goals rfl

theorem effectConsistency_noteToDelete (s : AppState) :
    (effectConsistency s).noteToDelete = s.noteToDelete := by
  unfold effectConsistency; repeat' split
  all_goals rfl

theorem effectConsistency_showDeleteModal (s : AppState) :
    (effectConsistency s).showDeleteModal = s.showDeleteModal := by
  unfold effectConsistency; repeat' split
  all_goals rfl

theorem effectConsistency_timer (s : AppState) : (effectConsistency s).timer = s.timer := by
  unfold effectConsistency; repeat' split
  all_goals rfl

theorem effectConsistency_timerDeps (s : AppState) :
    (effectConsistency s).timerDeps = s.timerDeps := by
  unfold effectConsistency; repeat' split
  all_goals rfl

theorem effectDirty_notes (s : AppState) : (effectDirty s).notes = s.notes := by
  unfold effectDirty; repeat' split
  all_goals rfl

theorem effectDirty_selectedNote (s : AppState) :
    (effectDirty s).selectedNote = s.selectedNote := by
  unfold effectDirty; repeat' split
  all_goals rfl

theorem effectDirty_currentTitle (s : AppState) :
    (effectDirty s).currentTitle = s.currentTitle := by
  unfold effectDirty; repeat' split
  all_goals rfl

theorem effectDirty_currentContent (s : AppState) :
    (effectDirty s).currentContent = s.currentContent := by
  unfold effectDirty; repeat' split
  all_goals rfl

theorem effectDirty_currentUser (s : AppState) : (effectDirty s).currentUser = s.currentUser := by
  unfold effectDirty; repeat' split
  all_goals rfl

theorem effectDirty_isSaving (s : AppState) : (effectDirty s).isSaving = s.isSaving := by
  unfold effectDirty; repeat' split
  all_goals rfl

theorem effectDirty_noteToDelete (s : AppState) :
    (effectDirty s).noteToDelete = s.noteToDelete := by
  unfold effectDirty; repeat' split
  all_goals rfl

theorem effectDirty_showDeleteModal (s : AppState) :
    (effectDirty s).showDeleteModal = s.showDeleteModal := by
  unfold effectDirty; repeat' split
  all_goals rfl

theorem effectDirty_timer (s : AppState) : (effectDirty s).timer = s.timer := by
  unfold effectDirty; repeat' split
  all_goals rfl

theorem effectDirty_timerDeps (s : AppState) : (effectDirty s).timerDeps = s.timerDeps := by
  unfold effectDirty; repeat' split
  all_goals rfl

theorem effectAutosave_notes (s : AppState) : (effectAutosave s).notes = s.notes := by
  unfold effectAutosave; split
  all_goals rfl

theorem effectAutosave_selectedNote (s : AppState) :
    (effectAutosave s).selectedNote = s.selectedNote := by
  unfold effectAutosave; split
  all_goals rfl

theorem effectAutosave_currentTitle (s : AppState) :
    (effectAutosave s).currentTitle = s.currentTitle := by
  unfold effectAutosave; split
  all_goals rfl

theorem effectAutosave_currentContent (s : AppState) :
    (effectAutosave s).currentContent = s.currentContent := by
  unfold effectAutosave; split
  all_goals rfl

theorem effectAutosave_currentUser (s : AppState) :
    (effectAutosave s).currentUser = s.currentUser := by
  unfold effectAutosave; split
  all_goals rfl

theorem effectAutosave_isSaving (s : AppState) : (effectAutosave s).isSaving = s.isSaving := by
  unfold effectAutosave; split
  all_goals rfl

theorem effectAutosave_isDirty (s : AppState) : (effectAutosave s).isDirty = s.isDirty := by
  unfold effectAutosave; split
  all_goals rfl

theorem effectAutosave_noteToDelete (s : AppState) :
    (effectAutosave s).noteToDelete = s.noteToDelete := by
  unfold effectAutosave; split
  all_goals rfl

theorem effectAutosave_showDeleteModal (s : AppState) :
    (effectAutosave s).showDeleteModal = s.showDeleteModal := by
  unfold effectAutosave; split
  all_goals rfl

theorem effectAutosave_timerDeps (s : AppState) :
    (effectAutosave s).timerDeps = autosaveDeps s := by
  unfold effectAutosave; split
  · next h => exact h.symm
  · rfl

/-! Behavioural lemmas for the three effects. -/

theorem effectConsistency_of_none (s : AppState) (h : s.selectedNote = none) :
    effectConsistency s = s := by
  unfold effectConsistency; rw [h]

theorem effectConsistency_of_present (s : AppState) (sel : Note)
    (hsel : s.selectedNote = some sel) (hfind : (findNote s.notes sel.id).isSome = true) :
    effectConsistency s = s := by
  unfold effectConsistency; rw [hsel]
  simp only [Option.isNone_iff_eq_none]
  rw [if_neg]
  intro hnone
  rw [hnone] at hfind
  exact Bool.false_ne_true hfind

theorem effectConsistency_clears (s : AppState) (sel : Note)
    (hsel : s.selectedNote = some sel) (hfind : findNote s.notes sel.id = none) :
    effectConsistency s =
      { s with selectedNote := none, currentTitle := "", currentContent := "", isDirty := false } := by
  unfold effectConsistency
  split
  · next sel2 heq =>
    rw [hsel] at heq
    cases heq
    rw [hfind]
    simp
  · next heq =>
    rw [hsel] at heq
    exact Option.noConfusion heq

theorem effectDirty_of_none (s : AppState) (h : s.selectedNote = none) :
    effectDirty s = { s with isDirty := false } := by
  unfold effectDirty; rw [h]

theorem effectDirty_of_found (s : AppState) (sel orig : Note)
    (hsel : s.selectedNote = some sel) (hfind : findNote s.notes sel.id = some orig) :
    effectDirty s =
      { s with isDirty := decide (s.currentTitle ≠ orig.title ∨ s.currentContent ≠ orig.content) } := by
  unfold effectDirty
  split
  · next sel2 heq =>
    rw [hsel] at heq
    cases heq
    split
    · next orig2 heq2 =>
      rw [hfind] at heq2
      cases heq2
      split
      · next h => simp [h]
      · next h => simp [h]
    · next heq2 =>
      rw [hfind] at heq2
      exact Option.noConfusion heq2
  · next heq =>
    rw [hsel] at heq
    exact Option.noConfusion heq

theorem effectAutosave_of_eq (s : AppState) (h : autosaveDeps s = s.timerDeps) :
    effectAutosave s = s := by
  unfold effectAutosave; rw [if_pos h]

theorem effectAutosave_of_ne (s : AppState) (h : ¬ autosaveDeps s = s.timerDeps) :
    effectAutosave s =
      { s with timerDeps := autosaveDeps s,
               timer := if s.isDirty && s.selectedNote.isSome && !s.isSaving then some debounceMs
                        else none } := by
  unfold effectAutosave; rw [if_neg h]

theorem effectAutosave_timer_cases (s : AppState) :
    (effectAutosave s).timer = s.timer ∨ (effectAutosave s).timer = none ∨
      (effectAutosave s).timer = some debounceMs := by
  unfold effectAutosave; split
  · exact Or.inl rfl
  · show Or _ (Or (ite _ _ _ = _) (ite _ _ _ = _))
    split
    · exact Or.inr (Or.inr rfl)
    · exact Or.inr (Or.inl rfl)

/-! Composed lemmas about one effects pass. -/

theorem runEffects_notes (s : AppState) : (runEffects s).notes = s.notes := by
  unfold runEffects
  rw [effectAutosave_notes, effectDirty_notes, effectConsistency_notes]

theorem runEffects_currentUser (s : AppState) : (runEffects s).currentUser = s.currentUser := by
  unfold runEffects
  rw [effectAutosave_currentUser, effectDirty_currentUser, effectConsistency_currentUser]

theorem runEffects_isSaving (s : AppState) : (runEffects s).isSaving = s.isSaving := by
  unfold runEffects
  rw [effectAutosave_isSaving, effectDirty_isSaving, effectConsistency_isSaving]

theorem runEffects_noteToDelete (s : AppState) :
    (runEffects s).noteToDelete = s.noteToDelete := by
  unfold runEffects
  rw [effectAutosave_noteToDelete, effectDirty_noteToDelete, effectConsistency_noteToDelete]

theorem runEffects_showDeleteModal (s : AppState) :
    (runEffects s).showDeleteModal = s.showDeleteModal := by
  unfold runEffects
  rw [effectAutosave_showDeleteModal, effectDirty_showDeleteModal, effectConsistency_showDeleteModal]

theorem runEffects_timerDeps (s : AppState) :
    (runEffects s).timerDeps = autosaveDeps (runEffects s) := by
  unfold runEffects
  rw [effectAutosave_timerDeps]
  unfold autosaveDeps
  rw [effectAutosave_isDirty, effectAutosave_selectedNote, effectAutosave_currentTitle,
    effectAutosave_currentContent, effectAutosave_isSaving]

theorem runEffects_timer_cases (s : AppState) :
    (runEffects s).timer = s.timer ∨ (runEffects s).timer = none ∨
      (runEffects s).timer = some debounceMs := by
  unfold runEffects
  rcases effectAutosave_timer_cases (effectDirty (effectConsistency s)) with h | h | h
  · rw [h, effectDirty_timer, effectConsistency_timer]
    exact Or.inl rfl
  · exact Or.inr (Or.inl h)
  · exact Or.inr (Or.inr h)

theorem runEffects_of_none (s : AppState) (h : s.selectedNote = none) :
    (runEffects s).selectedNote = none ∧ (runEffects s).currentTitle = s.currentTitle ∧
      (runEffects s).currentContent = s.currentContent ∧ (runEffects s).isDirty = false := by
  unfold runEffects
  rw [effectConsistency_of_none s h, effectDirty_of_none s h]
  refine ⟨?_, ?_, ?_, ?_⟩
  · rw [effectAutosave_selectedNote]; exact h
  · rw [effectAutosave_currentTitle]
  · rw [effectAutosave_currentContent]
  · rw [effectAutosave_isDirty]

theorem runEffects_of_present (s : AppState) (sel orig : Note)
    (hsel : s.selectedNote = some sel) (hfind : findNote s.notes sel.id = some orig) :
    (runEffects s).selectedNote = some sel ∧ (runEffects s).currentTitle = s.currentTitle ∧
      (runEffects s).currentContent = s.currentContent ∧
      (runEffects s).isDirty =
        decide (s.currentTitle ≠ orig.title ∨ s.currentContent ≠ orig.content) := by
  unfold runEffects
  rw [effectConsistency_of_present s sel hsel (by rw [hfind]; rfl),
    effectDirty_of_found s sel orig hsel hfind]
  refine ⟨?_, ?_, ?_, ?_⟩
  · rw [effectAutosave_selectedNote]; exact hsel
  · rw [effectAutosave_currentTitle]
  · rw [effectAutosave_currentContent]
  · rw [effectAutosave_isDirty]

theorem stable_find_of_selected (s : AppState) (sel : Note)
    (hstable : runEffects s = s) (hsel : s.selectedNote = some sel) :
    ∃ orig, findNote s.notes sel.id = some orig := by
  cases hfind : findNote s.notes sel.id with
  | some orig => exact ⟨orig, rfl⟩
  | none =>
    exfalso
    have hclear : (runEffects s).selectedNote = none := by
      unfold runEffects
      rw [effectConsistency_clears s sel hsel hfind]
      rw [effectAutosave_selectedNote, effectDirty_selectedNote]
    rw [hstable, hsel] at hclear
    exact Option.noConfusion hclear

/-! Lemmas about the cache lookup and the cache update of a save. -/

theorem findNote_id (notes : List Note) (nid : String) (n : Note)
    (h : findNote notes nid = some n) : n.id = nid := by
  have := List.find?_some h
  exact eq_of_beq this

theorem findNote_applySave (i a b : String) (tm : Nat) (notes : List Note) (nid : String) :
    findNote (applySave i a b tm notes) nid =
      (findNote notes nid).map fun n =>
        if n.id == i then { n with title := a, content := b, lastModified := some tm } else n := by
  induction notes with
  | nil => rfl
  | cons hd tl ih =>
    have hidx : (if (hd.id == i) = true then
        ({ hd with title := a, content := b, lastModified := some tm } : Note) else hd).id = hd.id := by
      split
      · rfl
      · rfl
    unfold findNote applySave at ih ⊢
    rw [List.map_cons]
    by_cases hid : (hd.id == nid) = true
    · have hx : ((if (hd.id == i) = true then
          ({ hd with title := a, content := b, lastModified := some tm } : Note) else hd).id == nid)
            = true := by
        rw [hidx]; exact hid
      rw [@List.find?_cons_of_pos Note (fun n => n.id == nid) _ _ hx,
        @List.find?_cons_of_pos Note (fun n => n.id == nid) _ _ hid]
      rfl
    · have hx : ¬ ((if (hd.id == i) = true then
          ({ hd with title := a, content := b, lastModified := some tm } : Note) else hd).id == nid)
            = true := by
        rw [hidx]; exact hid
      rw [@List.find?_cons_of_neg Note (fun n => n.id == nid) _ _ hx,
        @List.find?_cons_of_neg Note (fun n => n.id == nid) _ _ hid]
      exact ih

theorem findNote_cons_self (n : Note) (rest : List Note) (nid : String) (h : n.id = nid) :
    findNote (n :: rest) nid = some n := by
  unfold findNote
  rw [List.find?_cons_of_pos]
  rw [h]
  exact beq_self_eq_true nid

/-! The two state invariants hold after every effects pass. -/

theorem effectDirty_isDirty_of_none (s : AppState) (h : s.selectedNote = none) :
    (effectDirty s).isDirty = false := by
  rw [effectDirty_of_none s h]

theorem effectDirty_isDirty_of_found (s : AppState) (sel orig : Note)
    (hsel : s.selectedNote = some sel) (hfind : findNote s.notes sel.id = some orig) :
    (effectDirty s).isDirty =
      decide (s.currentTitle ≠ orig.title ∨ s.currentContent ≠ orig.content) := by
  rw [effectDirty_of_found s sel orig hsel hfind]

theorem runEffects_selectedNote_eq (s : AppState) :
    (runEffects s).selectedNote = (effectConsistency s).selectedNote := by
  unfold runEffects
  rw [effectAutosave_selectedNote, effectDirty_selectedNote]

theorem runEffects_currentTitle_eq (s : AppState) :
    (runEffects s).currentTitle = (effectConsistency s).currentTitle := by
  unfold runEffects
  rw [effectAutosave_currentTitle, effectDirty_currentTitle]

theorem runEffects_currentContent_eq (s : AppState) :
    (runEffects s).currentContent = (effectConsistency s).currentContent := by
  unfold runEffects
  rw [effectAutosave_currentContent, effectDirty_currentContent]

theorem runEffects_isDirty_eq (s : AppState) :
    (runEffects s).isDirty = (effectDirty (effectConsistency s)).isDirty := by
  unfold runEffects
  rw [effectAutosave_isDirty]

/-- The consistency pass leaves no selected note whose cache entry is
missing. -/
theorem effectConsistency_present_post (s : AppState) (sel : Note)
    (hsel : (effectConsistency s).selectedNote = some sel) :
    (findNote (effectConsistency s).notes sel.id).isSome = true := by
  cases hsel0 : s.selectedNote with
  | none =>
    rw [effectConsistency_of_none s hsel0, hsel0] at hsel
    exact Option.noConfusion hsel
  | some sel0 =>
    cases hfind0 : findNote s.notes sel0.id with
    | some o0 =>
      rw [effectConsistency_of_present s sel0 hsel0 (by rw [hfind0]; rfl)] at hsel ⊢
      rw [hsel0] at hsel
      cases hsel
      rw [hfind0]
      rfl
    | none =>
      rw [effectConsistency_clears s sel0 hsel0 hfind0] at hsel
      simp at hsel

theorem dirtyInvariant_runEffects (s : AppState) : dirtyInvariant (runEffects s) := by
  constructor
  · intro hnone
    rw [runEffects_selectedNote_eq] at hnone
    rw [runEffects_isDirty_eq, effectDirty_isDirty_of_none _ hnone]
  · intro sel orig hsel hfind
    rw [runEffects_selectedNote_eq] at hsel
    rw [runEffects_notes, ← effectConsistency_notes] at hfind
    rw [runEffects_isDirty_eq, effectDirty_isDirty_of_found _ sel orig hsel hfind,
      runEffects_currentTitle_eq, runEffects_currentContent_eq]
    simp

theorem selectionInvariant_runEffects (s : AppState) : selectionInvariant (runEffects s) := by
  intro sel hsel
  rw [runEffects_selectedNote_eq] at hsel
  rw [runEffects_notes, ← effectConsistency_notes]
  exact effectConsistency_present_post s sel hsel

/-! Preservation of the invariants along every event step. -/

theorem good_runEffects (s : AppState) : Good (runEffects s) :=
  ⟨dirtyInvariant_runEffects s, selectionInvariant_runEffects s⟩

theorem good_timer (x : Option Nat) (s : AppState) (h : Good s) :
    Good { s with timer := x } := h

theorem good_save (o : Oracle) (s : AppState) (h : Good s) :
    Good (saveCurrentNote o s).state := by
  unfold saveCurrentNote
  repeat' split
  all_goals first
  | exact good_runEffects _
  | exact h

theorem good_flushIfDirty (o : Oracle) (s : AppState) (h : Good s) :
    Good (flushIfDirty o s).state := by
  unfold flushIfDirty
  repeat' split
  all_goals first
  | exact good_save o s h
  | exact h

theorem good_handleSelectNote (o : Oracle) (n : Note) (s : AppState) :
    Good (handleSelectNote o n s).state :=
  good_runEffects _

theorem good_handleAddNewNote (o : Oracle) (newId : String) (s : AppState) (h : Good s) :
    Good (handleAddNewNote o newId s).state := by
  unfold handleAddNewNote
  dsimp only
  repeat' split
  all_goals first
  | exact good_runEffects _
  | exact good_flushIfDirty o s h

theorem good_handleConfirmDelete (o : Oracle) (s : AppState) (h : Good s) :
    Good (handleConfirmDelete o s).state := by
  unfold handleConfirmDelete
  repeat' split
  all_goals first
  | exact good_runEffects _
  | exact h

theorem good_elapseGo (fuel : Nat) (o : Oracle) (ms : Nat) (s : AppState) (h : Good s) :
    Good (elapseGo fuel o ms s).state := by
  induction fuel generalizing o ms s with
  | zero =>
    unfold elapseGo
    split
    · exact h
    · split
      · exact good_timer _ _ h
      · exact good_save _ _ (good_timer _ _ h)
  | succ fuel ih =>
    unfold elapseGo
    split
    · exact h
    · split
      · exact good_timer _ _ h
      · exact ih _ _ _ (good_save _ _ (good_timer _ _ h))

theorem good_stepE (e : Event) (w : World) (h : Good w.state) : Good (stepE e w).state := by
  cases e with
  | editTitle t => exact good_runEffects _
  | editContent c => exact good_runEffects _
  | select n => exact good_handleSelectNote _ _ _
  | addNew newId => exact good_handleAddNewNote _ _ _ h
  | requestDelete nid => exact good_runEffects _
  | confirmDelete => exact good_handleConfirmDelete _ _ h
  | cancelDelete => exact good_runEffects _
  | logout => exact good_runEffects _
  | elapse ms => exact good_elapseGo _ _ _ _ h

theorem good_run (w : World) (es : List Event) (h : Good w.state) : Good (run w es).state := by
  induction es generalizing w with
  | nil => exact h
  | cons e es ih => exact ih (stepE e w) (good_stepE e w h)

theorem good_mkWorld (uid : String) (fetched : List Note) (o : Oracle) :
    Good (mkWorld uid fetched o).state :=
  good_runEffects _

/-! Timer behaviour of an effects pass and of a save. -/

theorem runEffects_timer_of_none (s : AppState) (h : s.timer = none) :
    (runEffects s).timer = none ∨ (runEffects s).timer = some debounceMs := by
  rcases runEffects_timer_cases s with hc | hc | hc
  · exact Or.inl (hc.trans h)
  · exact Or.inl hc
  · exact Or.inr hc

theorem runEffects_timer_of_saving (s : AppState) (hsv : s.isSaving = true) :
    (runEffects s).timer = s.timer ∨ (runEffects s).timer = none := by
  have hdv : (effectDirty (effectConsistency s)).isSaving = true := by
    rw [effectDirty_isSaving, effectConsistency_isSaving]; exact hsv
  unfold runEffects effectAutosave
  split
  · left
    rw [effectDirty_timer, effectConsistency_timer]
  · right
    show (if (effectDirty (effectConsistency s)).isDirty &&
        (effectDirty (effectConsistency s)).selectedNote.isSome &&
        !(effectDirty (effectConsistency s)).isSaving then some debounceMs else none) = none
    rw [hdv]
    simp

/-- With a selected, present, actually-differing draft and no save in
flight, an effects pass whose auto-save dependencies changed arms a
fresh debounce window. -/
theorem runEffects_timer_armed (s : AppState) (sel orig : Note)
    (hsel : s.selectedNote = some sel)
    (hfind : findNote s.notes sel.id = some orig)
    (hdiff : s.currentTitle ≠ orig.title ∨ s.currentContent ≠ orig.content)
    (hsaving : s.isSaving = false)
    (hne : (⟨true, s.selectedNote, s.currentTitle, s.currentContent, s.isSaving⟩ : AutosaveDeps)
      ≠ s.timerDeps) :
    (runEffects s).timer = some debounceMs := by
  unfold runEffects
  rw [effectConsistency_of_present s sel hsel (by rw [hfind]; rfl),
    effectDirty_of_found s sel orig hsel hfind, decide_eq_true hdiff]
  rw [effectAutosave_of_ne { s with isDirty := true } hne]
  show (if true && s.selectedNote.isSome && !s.isSaving then some debounceMs else none)
    = some debounceMs
  rw [hsel, hsaving]
  simp

theorem saveCurrentNote_calls (o : Oracle) (s : AppState) (sel : Note)
    (hsel : s.selectedNote = some sel) (hdirty : s.isDirty = true) :
    (saveCurrentNote o s).calls =
      [StoreCall.update sel.id s.currentTitle s.currentContent o.takeTime.1] := by
  unfold saveCurrentNote
  split
  · next heq =>
    rw [hsel] at heq
    exact Option.noConfusion heq
  · next sel2 heq =>
    rw [hsel] at heq
    cases heq
    rw [if_pos hdirty]
    rcases hto : o.takeTime with ⟨t, o1⟩
    dsimp only
    rcases hok : o1.takeOk with ⟨ok, o2⟩
    dsimp only
    cases ok
    · rfl
    · rfl

theorem saveCurrentNote_not_dirty (o : Oracle) (s : AppState) (h : s.isDirty = false) :
    saveCurrentNote o s = ⟨s, o, []⟩ := by
  unfold saveCurrentNote
  split
  · rfl
  · rw [if_neg]
    rw [h]
    exact Bool.false_ne_true

theorem saveCurrentNote_no_sel (o : Oracle) (s : AppState) (h : s.selectedNote = none) :
    saveCurrentNote o s = ⟨s, o, []⟩ := by
  unfold saveCurrentNote
  split
  · rfl
  · next sel2 heq =>
    rw [h] at heq
    exact Option.noConfusion heq

theorem saveCurrentNote_timer (o : Oracle) (s : AppState) (h : s.timer = none) :
    (saveCurrentNote o s).state.timer = none ∨
      (saveCurrentNote o s).state.timer = some debounceMs := by
  have hmid : (runEffects { s with isSaving := true }).timer = none := by
    rcases runEffects_timer_of_saving { s with isSaving := true } rfl with hm | hm
    · exact hm.trans h
    · exact hm
  unfold saveCurrentNote
  repeat' split
  all_goals first
  | exact Or.inl h
  | exact runEffects_timer_of_none _ hmid

theorem elapseGo_zero_calls (fuel : Nat) (o : Oracle) (s : AppState)
    (h : s.timer = none ∨ s.timer = some debounceMs) :
    (elapseGo fuel o 0 s).calls = [] := by
  unfold elapseGo
  split
  · rfl
  · next r heq =>
    rcases h with h | h
    · rw [h] at heq
      exact Option.noConfusion heq
    · rw [h] at heq
      cases heq
      rw [if_pos (show (0 : Nat) < debounceMs by decide)]

theorem elapseGo_succ_fire (fuel : Nat) (o : Oracle) (s : AppState) (sel : Note)
    (htimer : s.timer = some debounceMs)
    (hsel : s.selectedNote = some sel) (hdirty : s.isDirty = true) :
    (elapseGo (fuel + 1) o debounceMs s).calls =
      [StoreCall.update sel.id s.currentTitle s.currentContent o.takeTime.1] := by
  unfold elapseGo
  split
  · next heq =>
    rw [htimer] at heq
    exact Option.noConfusion heq
  · next r heq =>
    rw [htimer] at heq
    cases heq
    rw [if_neg (lt_irrefl debounceMs)]
    show (saveCurrentNote o { s with timer := none }).calls ++
        (elapseGo fuel (saveCurrentNote o { s with timer := none }).oracle
          (debounceMs - debounceMs) (saveCurrentNote o { s with timer := none }).state).calls =
      [StoreCall.update sel.id s.currentTitle s.currentContent o.takeTime.1]
    have hfired : (saveCurrentNote o { s with timer := none }).calls =
        [StoreCall.update sel.id s.currentTitle s.currentContent o.takeTime.1] :=
      saveCurrentNote_calls o { s with timer := none } sel hsel hdirty
    have hrest : (elapseGo fuel (saveCurrentNote o { s with timer := none }).oracle
        (debounceMs - debounceMs) (saveCurrentNote o { s with timer := none }).state).calls = [] := by
      rw [Nat.sub_self]
      exact elapseGo_zero_calls fuel _ _ (saveCurrentNote_timer o _ rfl)
    rw [hfired, hrest]
    simp

/-- Passing exactly one debounce window over an armed, dirty, selected
state issues exactly one update call carrying the draft values. -/
theorem elapse_debounce_calls (o : Oracle) (s : AppState) (sel : Note)
    (htimer : s.timer = some debounceMs)
    (hsel : s.selectedNote = some sel) (hdirty : s.isDirty = true) :
    (elapse o debounceMs s).calls =
      [StoreCall.update sel.id s.currentTitle s.currentContent o.takeTime.1] :=
  elapseGo_succ_fire 1499 o s sel htimer hsel hdirty

/-- Full behaviour of `saveCurrentNote` on a dirty selected draft whose
cache entry is present and actually differs: the one update call, the
remaining oracle, the preserved fields, the success path (cache entry
mapped, dirty cleared) and the failure path (cache untouched, dirty
kept, debounce re-armed). -/
theorem saveCurrentNote_spec (o : Oracle) (s : AppState) (sel orig : Note) (t : Nat)
    (o1 : Oracle) (ok : Bool) (o2 : Oracle)
    (hsel : s.selectedNote = some sel) (hdirty : s.isDirty = true)
    (hfind : findNote s.notes sel.id = some orig)
    (hdiff : s.currentTitle ≠ orig.title ∨ s.currentContent ≠ orig.content)
    (hto : o.takeTime = (t, o1)) (hok : o1.takeOk = (ok, o2)) :
    (saveCurrentNote o s).calls = [StoreCall.update sel.id s.currentTitle s.currentContent t] ∧
    (saveCurrentNote o s).oracle = o2 ∧
    (saveCurrentNote o s).state.isSaving = false ∧
    (saveCurrentNote o s).state.selectedNote = some sel ∧
    (saveCurrentNote o s).state.currentTitle = s.currentTitle ∧
    (saveCurrentNote o s).state.currentContent = s.currentContent ∧
    (ok = true →
      (saveCurrentNote o s).state.notes =
        applySave sel.id s.currentTitle s.currentContent t s.notes ∧
      (saveCurrentNote o s).state.isDirty = false) ∧
    (ok = false →
      (saveCurrentNote o s).state.notes = s.notes ∧
      (saveCurrentNote o s).state.isDirty = true ∧
      (saveCurrentNote o s).state.timer = some debounceMs) := by
  have hmid := runEffects_of_present { s with isSaving := true } sel orig hsel hfind
  have hmidnotes : (runEffects { s with isSaving := true }).notes = s.notes := runEffects_notes _
  have hmidsaving : (runEffects { s with isSaving := true }).isSaving = true :=
    runEffects_isSaving _
  have hmiddeps : (runEffects { s with isSaving := true }).timerDeps =
      autosaveDeps (runEffects { s with isSaving := true }) := runEffects_timerDeps _
  unfold saveCurrentNote
  split
  · next heq =>
    rw [hsel] at heq
    exact Option.noConfusion heq
  · next sel2 heq =>
    rw [hsel] at heq
    cases heq
    rw [if_pos hdirty, hto]
    dsimp only
    rw [hok]
    dsimp only
    cases ok with
    | true =>
      rw [if_pos rfl]
      refine ⟨rfl, rfl, runEffects_isSaving _, ?_⟩
      have hupd : findNote (applySave sel.id s.currentTitle s.currentContent t
          (runEffects { s with isSaving := true }).notes) sel.id =
          some { orig with
                 title := s.currentTitle,
                 content := s.currentContent,
                 lastModified := some t } := by
        rw [hmidnotes, findNote_applySave, hfind]
        have hid : orig.id = sel.id := findNote_id _ _ _ hfind
        simp [hid]
      have hpost := runEffects_of_present
        { runEffects { s with isSaving := true } with
          notes := applySave sel.id s.currentTitle s.currentContent t
            (runEffects { s with isSaving := true }).notes,
          isDirty := false, isSaving := false }
        sel { orig with
              title := s.currentTitle,
              content := s.currentContent,
              lastModified := some t }
        hmid.1 hupd
      refine ⟨hpost.1, hpost.2.1.trans hmid.2.1, hpost.2.2.1.trans hmid.2.2.1, ?_, ?_⟩
      · intro _
        constructor
        · rw [runEffects_notes, hmidnotes]
        · rw [hpost.2.2.2, hmid.2.1, hmid.2.2.1]
          simp
      · intro hfalse
        exact Bool.noConfusion hfalse
    | false =>
      rw [if_neg Bool.false_ne_true]
      refine ⟨rfl, rfl, runEffects_isSaving _, ?_⟩
      have hfindf : findNote ({ runEffects { s with isSaving := true } with
          isSaving := false } : AppState).notes sel.id = some orig := by
        have hn : ({ runEffects { s with isSaving := true } with
            isSaving := false } : AppState).notes = s.notes := hmidnotes
        rw [hn]
        exact hfind
      have hpost := runEffects_of_present
        { runEffects { s with isSaving := true } with isSaving := false }
        sel orig hmid.1 hfindf
      refine ⟨hpost.1, hpost.2.1.trans hmid.2.1, hpost.2.2.1.trans hmid.2.2.1, ?_, ?_⟩
      · intro hTrue
        exact Bool.noConfusion hTrue
      · intro _
        refine ⟨by rw [runEffects_notes]; exact hmidnotes, ?_, ?_⟩
        · rw [hpost.2.2.2, hmid.2.1, hmid.2.2.1]
          exact decide_eq_true hdiff
        · have hselF : ({ runEffects { s with isSaving := true } with
              isSaving := false } : AppState).selectedNote = some sel := hmid.1
          apply runEffects_timer_armed _ sel orig hselF hfindf
          · rw [(hmid.2.1 : ({ runEffects { s with isSaving := true } with
                isSaving := false } : AppState).currentTitle = s.currentTitle),
              (hmid.2.2.1 : ({ runEffects { s with isSaving := true } with
                isSaving := false } : AppState).currentContent = s.currentContent)]
            exact hdiff
          · rfl
          · intro hEq
            have h1 : ({ runEffects { s with isSaving := true } with
                isSaving := false } : AppState).timerDeps.isSaving = true := by
              have h2 : ({ runEffects { s with isSaving := true } with
                  isSaving := false } : AppState).timerDeps =
                  autosaveDeps (runEffects { s with isSaving := true }) := hmiddeps
              rw [h2]
              exact hmidsaving
            have h3 := congrArg AutosaveDeps.isSaving hEq
            rw [h1] at h3
            exact Bool.noConfusion h3

/-! Oracle bookkeeping and the conditional flushes. -/

theorem Oracle.takeOk_nil (o : Oracle) (h : o.oks = []) : o.takeOk = (true, o) := by
  rcases o with ⟨oks, times⟩
  cases h
  rfl

theorem Oracle.takeTime_oks (o : Oracle) : (o.takeTime.2).oks = o.oks := by
  rcases o with ⟨oks, times⟩
  cases times
  · rfl
  · rfl

theorem flushIfDirty_not_dirty (o : Oracle) (s : AppState) (h : s.isDirty = false) :
    flushIfDirty o s = ⟨s, o, []⟩ := by
  unfold flushIfDirty
  split
  · rw [if_neg]
    rw [h]
    exact Bool.false_ne_true
  · rfl

theorem flushIfDirty_fires (o : Oracle) (s : AppState) (sel : Note)
    (hsel : s.selectedNote = some sel) (hdirty : s.isDirty = true) :
    flushIfDirty o s = saveCurrentNote o s := by
  unfold flushIfDirty
  split
  · rw [if_pos hdirty]
  · next heq =>
    rw [hsel] at heq
    exact Option.noConfusion heq

theorem flushIfSwitching_not_dirty (o : Oracle) (n : Note) (s : AppState)
    (h : s.isDirty = false) :
    flushIfSwitching o n s = ⟨s, o, []⟩ := by
  unfold flushIfSwitching
  split
  · rw [if_neg]
    rw [h]
    simp
  · rfl

theorem flushIfSwitching_fires (o : Oracle) (n : Note) (s : AppState) (sel : Note)
    (hsel : s.selectedNote = some sel) (hne : sel.id ≠ n.id) (hdirty : s.isDirty = true) :
    flushIfSwitching o n s = saveCurrentNote o s := by
  unfold flushIfSwitching
  split
  · next sel2 heq =>
    rw [hsel] at heq
    cases heq
    rw [if_pos]
    rw [hdirty]
    simp [bne_iff_ne]
    exact hne
  · next heq =>
    rw [hsel] at heq
    exact Option.noConfusion heq

theorem saveCurrentNote_currentUser (o : Oracle) (s : AppState) :
    (saveCurrentNote o s).state.currentUser = s.currentUser := by
  unfold saveCurrentNote
  repeat' split
  all_goals first
  | rfl
  | exact (runEffects_currentUser _).trans (runEffects_currentUser _)

theorem saveCurrentNote_notes_cases (o : Oracle) (s : AppState) (sel : Note)
    (hsel : s.selectedNote = some sel) :
    (saveCurrentNote o s).state.notes = s.notes ∨
      (saveCurrentNote o s).state.notes =
        applySave sel.id s.currentTitle s.currentContent o.takeTime.1 s.notes := by
  unfold saveCurrentNote
  split
  · exact Or.inl rfl
  · next sel2 heq =>
    rw [hsel] at heq
    cases heq
    split
    · rcases hto : o.takeTime with ⟨t, o1⟩
      dsimp only
      rcases hok : o1.takeOk with ⟨ok, o2⟩
      dsimp only
      cases ok
      · exact Or.inl ((runEffects_notes _).trans (runEffects_notes _))
      · exact Or.inr ((runEffects_notes _).trans
          (congrArg (applySave sel.id s.currentTitle s.currentContent t) (runEffects_notes _)))
    · exact Or.inl rfl

/-- Re-running the effects over an effects-stable state with only the
saving flag changed recomputes the same dirty flag. -/
theorem stable_isDirty_saving (t : AppState) (b : Bool)
    (hdt : dirtyInvariant t) (hst : selectionInvariant t) :
    (runEffects { t with isSaving := b }).isDirty = t.isDirty := by
  rcases Option.eq_none_or_eq_some t.selectedNote with hsel | ⟨sel, hsel⟩
  · rw [(runEffects_of_none { t with isSaving := b } hsel).2.2.2, (hdt.1 hsel).symm]
  · rcases Option.isSome_iff_exists.mp (hst sel hsel) with ⟨orig, hfind⟩
    rw [(runEffects_of_present { t with isSaving := b } sel orig hsel hfind).2.2.2]
    rcases hd : t.isDirty with _ | _
    · have hnd : ¬ (t.currentTitle ≠ orig.title ∨ t.currentContent ≠ orig.content) := by
        intro hcon
        have hx := (hdt.2 sel orig hsel hfind).mpr hcon
        rw [hd] at hx
        exact Bool.noConfusion hx
      exact decide_eq_false hnd
    · exact decide_eq_true ((hdt.2 sel orig hsel hfind).mp hd)

/-- Behaviour of `handleSelectNote` once its flush part is resolved:
the target note (present in the resulting cache as its own entry) is
loaded into the draft and the state is clean. -/
theorem handleSelectNote_loads (o : Oracle) (n : Note) (s : AppState) (sf : AppState)
    (og : Oracle) (cf : List StoreCall)
    (hflush : flushIfSwitching o n s = ⟨sf, og, cf⟩)
    (hfind : findNote sf.notes n.id = some n) :
    (handleSelectNote o n s).calls = cf ∧
    (handleSelectNote o n s).oracle = og ∧
    (handleSelectNote o n s).state.notes = sf.notes ∧
    (handleSelectNote o n s).state.selectedNote = some n ∧
    (handleSelectNote o n s).state.currentTitle = n.title ∧
    (handleSelectNote o n s).state.currentContent = n.content ∧
    (handleSelectNote o n s).state.isDirty = false ∧
    (handleSelectNote o n s).state.isSaving = sf.isSaving := by
  unfold handleSelectNote
  rw [hflush]
  dsimp only
  have hpost := runEffects_of_present
    { sf with
      selectedNote := some n,
      currentTitle := n.title,
      currentContent := n.content,
      isDirty := false } n n rfl hfind
  refine ⟨rfl, rfl, runEffects_notes _, hpost.1, hpost.2.1, hpost.2.2.1, ?_,
    runEffects_isSaving _⟩
  rw [hpost.2.2.2]
  simp

/-- `prev.map` skips a head entry whose id differs from the saved id. -/
theorem applySave_cons_ne (i a b : String) (t : Nat) (n : Note) (rest : List Note)
    (h : (n.id == i) = false) :
    applySave i a b t (n :: rest) = n :: applySave i a b t rest := by
  simp only [applySave, List.map_cons]
  rw [if_neg (by rw [h]; exact Bool.false_ne_true)]

/-- A second save of the same id with the same draft overwrites the
first: only the later timestamp remains in the cache entry. -/
theorem applySave_applySave (i a b : String) (t tp : Nat) (notes : List Note) :
    applySave i a b tp (applySave i a b t notes) = applySave i a b tp notes := by
  induction notes with
  | nil => rfl
  | cons hd tl ih =>
    simp only [applySave, List.map_cons] at ih ⊢
    by_cases h : (hd.id == i) = true
    · rw [if_pos h]
      have h2 : (({ hd with title := a, content := b, lastModified := some t } : Note).id == i)
          = true := h
      rw [if_pos h2, if_pos h, ih]
    · rw [if_neg h, if_neg h, ih]

/-- The full result of a firing, store-succeeding `saveCurrentNote`, as
one record equation (cf. `saveCurrentNote_spec` for the field-wise
account). -/
theorem saveCurrentNote_fires_ok (o : Oracle) (s : AppState) (sel : Note) (t : Nat)
    (o1 o2 : Oracle)
    (hsel : s.selectedNote = some sel) (hdirty : s.isDirty = true)
    (hto : o.takeTime = (t, o1)) (hok : o1.takeOk = (true, o2)) :
    saveCurrentNote o s =
      ⟨runEffects { runEffects { s with isSaving := true } with
          notes := applySave sel.id s.currentTitle s.currentContent t
            (runEffects { s with isSaving := true }).notes,
          isDirty := false, isSaving := false }, o2,
        [StoreCall.update sel.id s.currentTitle s.currentContent t]⟩ := by
  unfold saveCurrentNote
  split
  · next heq =>
    rw [hsel] at heq
    exact Option.noConfusion heq
  · next sel2 heq =>
    rw [hsel] at heq
    cases heq
    rw [if_pos hdirty, hto]
    dsimp only
    rw [hok]
    dsimp only
    rw [if_pos rfl]

/-- Loading a note that heads the cache into the draft: the fields take
the note's values and the recomputed dirty flag is clear. -/
theorem load_spec (s4 : AppState) (n : Note)
    (hfind : findNote s4.notes n.id = some n) :
    (runEffects { s4 with
      selectedNote := some n,
      currentTitle := n.title,
      currentContent := n.content,
      isDirty := false }).notes = s4.notes ∧
    (runEffects { s4 with
      selectedNote := some n,
      currentTitle := n.title,
      currentContent := n.content,
      isDirty := false }).selectedNote = some n ∧
    (runEffects { s4 with
      selectedNote := some n,
      currentTitle := n.title,
      currentContent := n.content,
      isDirty := false }).currentTitle = n.title ∧
    (runEffects { s4 with
      selectedNote := some n,
      currentTitle := n.title,
      currentContent := n.content,
      isDirty := false }).currentContent = n.content ∧
    (runEffects { s4 with
      selectedNote := some n,
      currentTitle := n.title,
      currentContent := n.content,
      isDirty := false }).isDirty = false ∧
    (runEffects { s4 with
      selectedNote := some n,
      currentTitle := n.title,
      currentContent := n.content,
      isDirty := false }).isSaving = s4.isSaving := by
  have hpost := runEffects_of_present
    { s4 with
      selectedNote := some n,
      currentTitle := n.title,
      currentContent := n.content,
      isDirty := false } n n rfl hfind
  refine ⟨runEffects_notes _, hpost.1, hpost.2.1, hpost.2.2.1, ?_, runEffects_isSaving _⟩
  rw [hpost.2.2.2]
  simp

/-- The tail of the Dirty-path `handleAddNewNote`: one render loads the
created note into the draft of an already-not-saving state whose cache
it heads. -/
theorem addNew_finish_spec (s4 : AppState) (n : Note) (ns : List Note)
    (hnotes : s4.notes = n :: ns) (hsaving : s4.isSaving = false) :
    (runEffects { s4 with
      selectedNote := some n,
      currentTitle := n.title,
      currentContent := n.content,
      isDirty := false }).notes = n :: ns ∧
    (runEffects { s4 with
      selectedNote := some n,
      currentTitle := n.title,
      currentContent := n.content,
      isDirty := false }).selectedNote = some n ∧
    (runEffects { s4 with
      selectedNote := some n,
      currentTitle := n.title,
      currentContent := n.content,
      isDirty := false }).currentTitle = n.title ∧
    (runEffects { s4 with
      selectedNote := some n,
      currentTitle := n.title,
      currentContent := n.content,
      isDirty := false }).currentContent = n.content ∧
    (runEffects { s4 with
      selectedNote := some n,
      currentTitle := n.title,
      currentContent := n.content,
      isDirty := false }).isDirty = false ∧
    (runEffects { s4 with
      selectedNote := some n,
      currentTitle := n.title,
      currentContent := n.content,
      isDirty := false }).isSaving = false := by
  have hfind : findNote s4.notes n.id = some n := by
    rw [hnotes]
    exact findNote_cons_self _ _ _ rfl
  have h := load_spec s4 n hfind
  exact ⟨h.1.trans hnotes, h.2.1, h.2.2.1, h.2.2.2.1, h.2.2.2.2.1,
    h.2.2.2.2.2.trans hsaving⟩

/-- The tail of the Clean-path `handleAddNewNote`: one render loads the
created note into the draft, a second clears the saving flag. -/
theorem addNew_finish_clear_spec (s2 : AppState) (n : Note) (ns : List Note)
    (hnotes : s2.notes = n :: ns) :
    (runEffects { (runEffects { s2 with
        selectedNote := some n,
        currentTitle := n.title,
        currentContent := n.content,
        isDirty := false } : AppState) with
      isSaving := false }).notes = n :: ns ∧
    (runEffects { (runEffects { s2 with
        selectedNote := some n,
        currentTitle := n.title,
        currentContent := n.content,
        isDirty := false } : AppState) with
      isSaving := false }).selectedNote = some n ∧
    (runEffects { (runEffects { s2 with
        selectedNote := some n,
        currentTitle := n.title,
        currentContent := n.content,
        isDirty := false } : AppState) with
      isSaving := false }).currentTitle = n.title ∧
    (runEffects { (runEffects { s2 with
        selectedNote := some n,
        currentTitle := n.title,
        currentContent := n.content,
        isDirty := false } : AppState) with
      isSaving := false }).currentContent = n.content ∧
    (runEffects { (runEffects { s2 with
        selectedNote := some n,
        currentTitle := n.title,
        currentContent := n.content,
        isDirty := false } : AppState) with
      isSaving := false }).isDirty = false ∧
    (runEffects { (runEffects { s2 with
        selectedNote := some n,
        currentTitle := n.title,
        currentContent := n.content,
        isDirty := false } : AppState) with
      isSaving := false }).isSaving = false := by
  have hfind : findNote s2.notes n.id = some n := by
    rw [hnotes]
    exact findNote_cons_self _ _ _ rfl
  have hA := load_spec s2 n hfind
  have hfindB : findNote ({ (runEffects { s2 with
      selectedNote := some n,
      currentTitle := n.title,
      currentContent := n.content,
      isDirty := false } : AppState) with
      isSaving := false } : AppState).notes n.id = some n := by
    have hx : ({ (runEffects { s2 with
        selectedNote := some n,
        currentTitle := n.title,
        currentContent := n.content,
        isDirty := false } : AppState) with
      isSaving := false } : AppState).notes = s2.notes := hA.1
    rw [hx]
    exact hfind
  have hpost := runEffects_of_present
    { (runEffects { s2 with
        selectedNote := some n,
        currentTitle := n.title,
        currentContent := n.content,
        isDirty := false } : AppState) with
      isSaving := false }
    n n hA.2.1 hfindB
  refine ⟨?_, hpost.1, ?_, ?_, ?_, runEffects_isSaving _⟩
  · rw [runEffects_notes]
    exact hA.1.trans hnotes
  · exact hpost.2.1.trans hA.2.2.1
  · exact hpost.2.2.1.trans hA.2.2.2.1
  · rw [hpost.2.2.2]
    have ht : ({ (runEffects { s2 with
        selectedNote := some n,
        currentTitle := n.title,
        currentContent := n.content,
        isDirty := false } : AppState) with
      isSaving := false } : AppState).currentTitle = n.title := hA.2.2.1
    have hc : ({ (runEffects { s2 with
        selectedNote := some n,
        currentTitle := n.title,
        currentContent := n.content,
        isDirty := false } : AppState) with
      isSaving := false } : AppState).currentContent = n.content := hA.2.2.2.1
    rw [ht, hc]
    simp

/-- Behaviour of `handleAddNewNote` from a Clean entry state with a
logged-in user and an all-successful store: no flush and no stale
re-save, one create call, the new note prepended to the cache,
selected, loaded, clean. -/
theorem handleAddNewNote_clean_spec (o : Oracle) (s : AppState) (uid newId : String)
    (hclean : s.isDirty = false)
    (huser : s.currentUser = some uid)
    (hoks : o.oks = []) :
    (handleAddNewNote o newId s).calls =
      [StoreCall.create "Untitled Note" "" o.takeTime.1 o.takeTime.2.takeTime.1 uid] ∧
    (handleAddNewNote o newId s).state.notes =
      (⟨newId, "Untitled Note", "", some o.takeTime.1, some o.takeTime.2.takeTime.1,
        some uid⟩ : Note) :: s.notes ∧
    (handleAddNewNote o newId s).state.selectedNote =
      some ⟨newId, "Untitled Note", "", some o.takeTime.1, some o.takeTime.2.takeTime.1,
        some uid⟩ ∧
    (handleAddNewNote o newId s).state.currentTitle = "Untitled Note" ∧
    (handleAddNewNote o newId s).state.currentContent = "" ∧
    (handleAddNewNote o newId s).state.isDirty = false ∧
    (handleAddNewNote o newId s).state.isSaving = false := by
  unfold handleAddNewNote
  rw [flushIfDirty_not_dirty o s hclean]
  dsimp only
  split
  · next heq =>
    rw [huser] at heq
    exact Option.noConfusion heq
  next uid2 heq =>
  rw [huser] at heq
  cases heq
  rcases ht1 : o.takeTime with ⟨t1, o1⟩
  dsimp only
  rcases ht2 : o1.takeTime with ⟨t2, o2⟩
  dsimp only
  have ho1 : o1.oks = [] := by
    have hx := Oracle.takeTime_oks o
    rw [ht1] at hx
    exact hx.trans hoks
  have ho2 : o2.oks = [] := by
    have hx := Oracle.takeTime_oks o1
    rw [ht2] at hx
    exact hx.trans ho1
  rw [Oracle.takeOk_nil o2 ho2]
  dsimp only
  rw [if_pos rfl]
  have hfin := addNew_finish_clear_spec
    { runEffects { s with isSaving := true } with
      notes := (⟨newId, "Untitled Note", "", some t1, some t2, some uid⟩ : Note) ::
        (runEffects { s with isSaving := true }).notes }
    (⟨newId, "Untitled Note", "", some t1, some t2, some uid⟩ : Note)
    s.notes
    (congrArg (List.cons (⟨newId, "Untitled Note", "", some t1, some t2, some uid⟩ : Note))
      (runEffects_notes { s with isSaving := true }))
  split
  · next sel heq2 =>
    rw [if_neg (by rw [hclean]; simp)]
    exact ⟨rfl, hfin.1, hfin.2.1, hfin.2.2.1, hfin.2.2.2.1, hfin.2.2.2.2.1, hfin.2.2.2.2.2⟩
  · exact ⟨rfl, hfin.1, hfin.2.1, hfin.2.2.1, hfin.2.2.2.1, hfin.2.2.2.2.1, hfin.2.2.2.2.2⟩

set_option maxHeartbeats 3200000 in
/-- Behaviour of `handleAddNewNote` from a Dirty entry state on a
selected note whose id differs from the fresh id, with a logged-in
user and an all-successful store: the flush update precedes the create
in the call list, the stale-closure re-save of the previous note
follows the create with a fourth clock read, and the new note heads
the re-stamped cache, selected, loaded, clean. -/
theorem handleAddNewNote_dirty_spec (o : Oracle) (s : AppState) (sel : Note)
    (uid newId : String)
    (hsel : s.selectedNote = some sel)
    (hdirty : s.isDirty = true)
    (hne : sel.id ≠ newId)
    (huser : s.currentUser = some uid)
    (hoks : o.oks = []) :
    (handleAddNewNote o newId s).calls =
      [StoreCall.update sel.id s.currentTitle s.currentContent o.takeTime.1,
       StoreCall.create "Untitled Note" "" o.takeTime.2.takeTime.1
         o.takeTime.2.takeTime.2.takeTime.1 uid,
       StoreCall.update sel.id s.currentTitle s.currentContent
         o.takeTime.2.takeTime.2.takeTime.2.takeTime.1] ∧
    (handleAddNewNote o newId s).state.notes =
      (⟨newId, "Untitled Note", "", some o.takeTime.2.takeTime.1,
        some o.takeTime.2.takeTime.2.takeTime.1, some uid⟩ : Note) ::
        applySave sel.id s.currentTitle s.currentContent
          o.takeTime.2.takeTime.2.takeTime.2.takeTime.1 s.notes ∧
    (handleAddNewNote o newId s).state.selectedNote =
      some ⟨newId, "Untitled Note", "", some o.takeTime.2.takeTime.1,
        some o.takeTime.2.takeTime.2.takeTime.1, some uid⟩ ∧
    (handleAddNewNote o newId s).state.currentTitle = "Untitled Note" ∧
    (handleAddNewNote o newId s).state.currentContent = "" ∧
    (handleAddNewNote o newId s).state.isDirty = false ∧
    (handleAddNewNote o newId s).state.isSaving = false := by
  rcases htF : o.takeTime with ⟨tF, oA⟩
  have hoA : oA.oks = [] := by
    have hx := Oracle.takeTime_oks o
    rw [htF] at hx
    exact hx.trans hoks
  have hflush : flushIfDirty o s =
      ⟨runEffects { runEffects { s with isSaving := true } with
          notes := applySave sel.id s.currentTitle s.currentContent tF
            (runEffects { s with isSaving := true }).notes,
          isDirty := false, isSaving := false }, oA,
        [StoreCall.update sel.id s.currentTitle s.currentContent tF]⟩ := by
    rw [flushIfDirty_fires o s sel hsel hdirty]
    exact saveCurrentNote_fires_ok o s sel tF oA oA hsel hdirty htF (Oracle.takeOk_nil oA hoA)
  unfold handleAddNewNote
  rw [hflush]
  dsimp only
  split
  · next heq =>
    rw [huser] at heq
    exact Option.noConfusion heq
  next uid2 heq =>
  rw [huser] at heq
  cases heq
  rcases ht1 : oA.takeTime with ⟨t1, oB⟩
  dsimp only
  rcases ht2 : oB.takeTime with ⟨t2, oC⟩
  dsimp only
  have hoB : oB.oks = [] := by
    have hx := Oracle.takeTime_oks oA
    rw [ht1] at hx
    exact hx.trans hoA
  have hoC : oC.oks = [] := by
    have hx := Oracle.takeTime_oks oB
    rw [ht2] at hx
    exact hx.trans hoB
  rw [Oracle.takeOk_nil oC hoC]
  dsimp only
  rw [if_pos rfl]
  split
  · next sel2 heq2 =>
    rw [hsel] at heq2
    cases heq2
    have hcond : (sel.id != newId && s.isDirty) = true := by
      rw [hdirty]
      simp [bne_iff_ne]
      exact hne
    rw [if_pos hcond]
    rcases ht3 : oC.takeTime with ⟨t3, oD⟩
    dsimp only
    have hoD : oD.oks = [] := by
      have hx := Oracle.takeTime_oks oC
      rw [ht3] at hx
      exact hx.trans hoC
    rw [Oracle.takeOk_nil oD hoD]
    dsimp only
    rw [if_pos rfl]
    have hid : (newId == sel.id) = false := by
      cases hb : (newId == sel.id) with
      | false => rfl
      | true => exact absurd (eq_of_beq hb) (Ne.symm hne)
    refine ⟨rfl, addNew_finish_spec _
      (⟨newId, "Untitled Note", "", some t1, some t2, some uid⟩ : Note)
      (applySave sel.id s.currentTitle s.currentContent t3 s.notes) ?_ ?_⟩
    · simp only [runEffects_notes]
      rw [applySave_cons_ne _ _ _ _ _ _ hid, applySave_applySave]
    · exact runEffects_isSaving _
  · next heq2 =>
    rw [hsel] at heq2
    exact Option.noConfusion heq2

/-! The effects pass neither reads nor writes the pending-delete id or
the modal flag, so it commutes with setting them. -/

theorem effectConsistency_pm (s : AppState) (x : Option String) (b : Bool) :
    effectConsistency { s with noteToDelete := x, showDeleteModal := b } =
      { effectConsistency s with noteToDelete := x, showDeleteModal := b } := by
  rcases s with ⟨cu, al, ns, so, ct, cc, il, sv, dr, sm, nd, tm, td⟩
  unfold effectConsistency
  cases so with
  | none => rfl
  | some sel =>
    dsimp only
    split
    · rfl
    · rfl

theorem effectDirty_pm (s : AppState) (x : Option String) (b : Bool) :
    effectDirty { s with noteToDelete := x, showDeleteModal := b } =
      { effectDirty s with noteToDelete := x, showDeleteModal := b } := by
  rcases s with ⟨cu, al, ns, so, ct, cc, il, sv, dr, sm, nd, tm, td⟩
  unfold effectDirty
  cases so with
  | none => rfl
  | some sel =>
    dsimp only
    cases hfind : findNote ns sel.id with
    | none => rfl
    | some orig =>
      dsimp only
      split
      · rfl
      · rfl

theorem effectAutosave_pm (s : AppState) (x : Option String) (b : Bool) :
    effectAutosave { s with noteToDelete := x, showDeleteModal := b } =
      { effectAutosave s with noteToDelete := x, showDeleteModal := b } := by
  rcases s with ⟨cu, al, ns, so, ct, cc, il, sv, dr, sm, nd, tm, td⟩
  unfold effectAutosave autosaveDeps
  dsimp only
  split
  · rfl
  · rfl

theorem runEffects_pm (s : AppState) (x : Option String) (b : Bool) :
    runEffects { s with noteToDelete := x, showDeleteModal := b } =
      { runEffects s with noteToDelete := x, showDeleteModal := b } := by
  unfold runEffects
  rw [effectConsistency_pm, effectDirty_pm, effectAutosave_pm]

/-- Behaviour of `handleConfirmDelete` with a pending id over an
all-successful store: one delete call, the entry filtered out of the
cache, the pending id and modal cleared, and — when the note selected
at the saving render was the deleted one — the draft cleared. -/
theorem handleConfirmDelete_spec (o : Oracle) (s : AppState) (nid : String)
    (hpend : s.noteToDelete = some nid)
    (hoks : o.oks = []) :
    (handleConfirmDelete o s).calls = [StoreCall.delete nid] ∧
    (handleConfirmDelete o s).state.notes = s.notes.filter (fun n => n.id != nid) ∧
    (handleConfirmDelete o s).state.noteToDelete = none ∧
    (handleConfirmDelete o s).state.showDeleteModal = false ∧
    (∀ sel, (runEffects { s with isSaving := true }).selectedNote = some sel → sel.id = nid →
      (handleConfirmDelete o s).state.selectedNote = none ∧
      (handleConfirmDelete o s).state.currentTitle = "" ∧
      (handleConfirmDelete o s).state.currentContent = "" ∧
      (handleConfirmDelete o s).state.isDirty = false) := by
  unfold handleConfirmDelete
  split
  · next heq =>
    rw [hpend] at heq
    exact Option.noConfusion heq
  · next nid2 heq =>
    rw [hpend] at heq
    cases heq
    rw [Oracle.takeOk_nil o hoks]
    dsimp only
    rw [if_pos rfl]
    split
    · next sel2 heq2 =>
      split
      · next hbeq =>
        refine ⟨rfl, ?_, runEffects_noteToDelete _, runEffects_showDeleteModal _, ?_⟩
        · exact (runEffects_notes _).trans
            (congrArg (List.filter fun (n : Note) => n.id != nid)
              (runEffects_notes { s with isSaving := true }))
        · intro sel hsel1 hid
          exact ⟨(runEffects_of_none _ rfl).1, (runEffects_of_none _ rfl).2.1,
            (runEffects_of_none _ rfl).2.2.1, (runEffects_of_none _ rfl).2.2.2⟩
      · next hbeq =>
        refine ⟨rfl, ?_, runEffects_noteToDelete _, runEffects_showDeleteModal _, ?_⟩
        · exact (runEffects_notes _).trans
            (congrArg (List.filter fun (n : Note) => n.id != nid)
              (runEffects_notes { s with isSaving := true }))
        · intro sel hsel1 hid
          exfalso
          rw [hsel1] at heq2
          cases heq2
          rw [hid] at hbeq
          exact hbeq (beq_self_eq_true nid)
    · next heq2 =>
      refine ⟨rfl, ?_, runEffects_noteToDelete _, runEffects_showDeleteModal _, ?_⟩
      · exact (runEffects_notes _).trans
          (congrArg (List.filter fun (n : Note) => n.id != nid)
            (runEffects_notes { s with isSaving := true }))
      · intro sel hsel1 hid
        exfalso
        rw [hsel1] at heq2
        exact Option.noConfusion heq2

/-! The claims. -/

/-- Claim C6: for every state, including Dirty states with unsaved
edits, logout (session becoming none) results in an empty local cache,
no selected note, empty draft title and content, and a false dirty
flag; no save of the unsaved edits is attempted (the store-call log is
unchanged). -/
theorem c6_logout_clears (w : World) :
    (stepE Event.logout w).state.currentUser = none ∧
    (stepE Event.logout w).state.notes = [] ∧
    (stepE Event.logout w).state.selectedNote = none ∧
    (stepE Event.logout w).state.currentTitle = "" ∧
    (stepE Event.logout w).state.currentContent = "" ∧
    (stepE Event.logout w).state.isDirty = false ∧
    (stepE Event.logout w).log = w.log := by
  refine ⟨runEffects_currentUser _, runEffects_notes _, (runEffects_of_none _ rfl).1,
    (runEffects_of_none _ rfl).2.1, (runEffects_of_none _ rfl).2.2.1,
    (runEffects_of_none _ rfl).2.2.2, rfl⟩

/-- Claim C7: in every reachable state in which a note is selected and
an entry with its id exists in the local cache, the dirty flag is true
iff the draft title or content differs from that entry; with no
selection the dirty flag is false. -/
theorem c7_dirty_flag_invariant (uid : String) (fetched : List Note) (o : Oracle)
    (es : List Event) :
    dirtyInvariant (run (mkWorld uid fetched o) es).state :=
  (good_run (mkWorld uid fetched o) es (good_mkWorld uid fetched o)).1

/-- Claim C8: if a note is selected but no cache entry with its id is
present, the effects pass forces the draft to Empty (selection, title,
content and dirty flag cleared); consequently in every reachable state
a selected note's entry is present in the local cache. -/
theorem c8_cache_consistency_guard (s : AppState) (sel : Note) (uid : String)
    (fetched : List Note) (o : Oracle) (es : List Event)
    (hsel : s.selectedNote = some sel) (habsent : findNote s.notes sel.id = none) :
    (runEffects s).selectedNote = none ∧ (runEffects s).currentTitle = "" ∧
    (runEffects s).currentContent = "" ∧ (runEffects s).isDirty = false ∧
    selectionInvariant (run (mkWorld uid fetched o) es).state := by
  have hc := effectConsistency_clears s sel hsel habsent
  refine ⟨?_, ?_, ?_, ?_, (good_run _ es (good_mkWorld uid fetched o)).2⟩
  · rw [runEffects_selectedNote_eq, hc]
  · rw [runEffects_currentTitle_eq, hc]
  · rw [runEffects_currentContent_eq, hc]
  · rw [runEffects_isDirty_eq]
    apply effectDirty_isDirty_of_none
    rw [hc]

theorem c8_witness :
    (runEffects orphanState).selectedNote = none ∧ (runEffects orphanState).currentTitle = "" ∧
    (runEffects orphanState).currentContent = "" ∧ (runEffects orphanState).isDirty = false ∧
    selectionInvariant (run (mkWorld "u" [note1] oracleOk) [Event.select note1]).state :=
  c8_cache_consistency_guard orphanState note1 "u" [note1] oracleOk [Event.select note1]
    (by decide) (by decide)

/-- Claim C2 (counterexample): in a Dirty state, the Select operation on
the currently selected note issues no flush save at all (the log stays
empty) and the draft edits are reverted to the cached copy — the claim
required a flush save for every Select while Dirty. -/
theorem c2_counterexample :
    worldDirty.state.isDirty = true ∧
    worldDirty.state.selectedNote = some note1 ∧
    (stepE (Event.select note1) worldDirty).log = [] ∧
    (stepE (Event.select note1) worldDirty).state.currentTitle = "A" := by
  decide

/-- Claim C2 (amended): for every Select of a note whose id differs
from the currently selected note's id while the draft is Dirty, a flush
save of the previous note (carrying the draft values) is issued before
the newly selected note's fields are loaded; afterwards the draft holds
the selected note's title and content and the dirty flag is false. -/
theorem c2_select_flush (w : World) (sel n : Note)
    (hsel : w.state.selectedNote = some sel)
    (hne : sel.id ≠ n.id)
    (hdirty : w.state.isDirty = true)
    (hfindN : findNote w.state.notes n.id = some n) :
    (stepE (Event.select n) w).log =
      w.log ++ [StoreCall.update sel.id w.state.currentTitle w.state.currentContent
        w.oracle.takeTime.1] ∧
    (stepE (Event.select n) w).state.selectedNote = some n ∧
    (stepE (Event.select n) w).state.currentTitle = n.title ∧
    (stepE (Event.select n) w).state.currentContent = n.content ∧
    (stepE (Event.select n) w).state.isDirty = false := by
  have hflush2 : flushIfSwitching w.oracle n w.state =
      ⟨(saveCurrentNote w.oracle w.state).state, (saveCurrentNote w.oracle w.state).oracle,
        (saveCurrentNote w.oracle w.state).calls⟩ :=
    flushIfSwitching_fires w.oracle n w.state sel hsel hne hdirty
  have hfindP : findNote (saveCurrentNote w.oracle w.state).state.notes n.id = some n := by
    rcases saveCurrentNote_notes_cases w.oracle w.state sel hsel with h | h
    · rw [h]
      exact hfindN
    · rw [h, findNote_applySave, hfindN]
      have hne2 : (n.id == sel.id) = false := by
        rw [beq_eq_false_iff_ne]
        intro hh
        exact hne hh.symm
      simp [hne2]
      intro hh
      exact absurd hh.symm hne
  have hloads := handleSelectNote_loads w.oracle n w.state
    (saveCurrentNote w.oracle w.state).state (saveCurrentNote w.oracle w.state).oracle
    (saveCurrentNote w.oracle w.state).calls hflush2 hfindP
  have hcalls := saveCurrentNote_calls w.oracle w.state sel hsel hdirty
  refine ⟨?_, hloads.2.2.2.1, hloads.2.2.2.2.1, hloads.2.2.2.2.2.1, hloads.2.2.2.2.2.2.1⟩
  show w.log ++ (handleSelectNote w.oracle n w.state).calls = _
  rw [hloads.1, hcalls]

theorem c2_witness :
    (stepE (Event.select note2) worldDirty).log =
      worldDirty.log ++ [StoreCall.update note1.id worldDirty.state.currentTitle
        worldDirty.state.currentContent worldDirty.oracle.takeTime.1] ∧
    (stepE (Event.select note2) worldDirty).state.selectedNote = some note2 ∧
    (stepE (Event.select note2) worldDirty).state.currentTitle = note2.title ∧
    (stepE (Event.select note2) worldDirty).state.currentContent = note2.content ∧
    (stepE (Event.select note2) worldDirty).state.isDirty = false :=
  c2_select_flush worldDirty note1 note2 (by decide) (by decide) (by decide) (by decide)

/-- Claim C3 (counterexample): after a failed save the code does retry
automatically — with no further edit, the re-armed debounce issues a
second update 1.5 seconds later; the claim's "no automatic retry" is
false on the code. -/
theorem c3_counterexample :
    (stepE (Event.elapse 1500) worldFail).log = [StoreCall.update "n1" "B" "x" 10] ∧
    (stepE (Event.elapse 1500) worldFail).state.isDirty = true ∧
    (stepE (Event.elapse 1500) worldFail).state.notes = [note1] ∧
    (stepE (Event.elapse 1500) (stepE (Event.elapse 1500) worldFail)).log =
      [StoreCall.update "n1" "B" "x" 10, StoreCall.update "n1" "B" "x" 20] := by
  decide

/-- Claim C3 (amended): a save of a Dirty selected draft issues exactly
one update carrying the draft title, content and a fresh timestamp and
leaves the Saving state; on success exactly the matching cache entries
are replaced with those values and the state is Clean; on failure the
cache is unchanged and the state returns to Dirty — and the debounce
re-arms, so without any further edit the save is automatically retried
after another 1.5 seconds of inactivity. -/
theorem c3_save_lifecycle (o : Oracle) (s : AppState) (sel orig : Note) (t : Nat)
    (o1 : Oracle) (ok : Bool) (o2 : Oracle)
    (hsel : s.selectedNote = some sel) (hdirty : s.isDirty = true)
    (hfind : findNote s.notes sel.id = some orig)
    (hdiff : s.currentTitle ≠ orig.title ∨ s.currentContent ≠ orig.content)
    (hto : o.takeTime = (t, o1)) (hok : o1.takeOk = (ok, o2)) :
    (saveCurrentNote o s).calls = [StoreCall.update sel.id s.currentTitle s.currentContent t] ∧
    (saveCurrentNote o s).state.isSaving = false ∧
    (ok = true →
      (saveCurrentNote o s).state.notes =
        applySave sel.id s.currentTitle s.currentContent t s.notes ∧
      (saveCurrentNote o s).state.isDirty = false) ∧
    (ok = false →
      (saveCurrentNote o s).state.notes = s.notes ∧
      (saveCurrentNote o s).state.isDirty = true ∧
      (saveCurrentNote o s).state.timer = some debounceMs ∧
      (elapse (saveCurrentNote o s).oracle debounceMs (saveCurrentNote o s).state).calls =
        [StoreCall.update sel.id s.currentTitle s.currentContent
          (saveCurrentNote o s).oracle.takeTime.1]) := by
  have hspec := saveCurrentNote_spec o s sel orig t o1 ok o2 hsel hdirty hfind hdiff hto hok
  refine ⟨hspec.1, hspec.2.2.1, hspec.2.2.2.2.2.2.1, ?_⟩
  intro hf
  have hfail := hspec.2.2.2.2.2.2.2 hf
  refine ⟨hfail.1, hfail.2.1, hfail.2.2, ?_⟩
  rw [elapse_debounce_calls (saveCurrentNote o s).oracle (saveCurrentNote o s).state sel
    hfail.2.2 hspec.2.2.2.1 hfail.2.1,
    hspec.2.2.2.2.1, hspec.2.2.2.2.2.1]

theorem c3_witness :
    (saveCurrentNote worldFail.oracle worldFail.state).calls =
      [StoreCall.update note1.id worldFail.state.currentTitle worldFail.state.currentContent 10] ∧
    (saveCurrentNote worldFail.oracle worldFail.state).state.isSaving = false ∧
    (false = true →
      (saveCurrentNote worldFail.oracle worldFail.state).state.notes =
        applySave note1.id worldFail.state.currentTitle worldFail.state.currentContent 10
          worldFail.state.notes ∧
      (saveCurrentNote worldFail.oracle worldFail.state).state.isDirty = false) ∧
    (false = false →
      (saveCurrentNote worldFail.oracle worldFail.state).state.notes = worldFail.state.notes ∧
      (saveCurrentNote worldFail.oracle worldFail.state).state.isDirty = true ∧
      (saveCurrentNote worldFail.oracle worldFail.state).state.timer = some debounceMs ∧
      (elapse (saveCurrentNote worldFail.oracle worldFail.state).oracle debounceMs
        (saveCurrentNote worldFail.oracle worldFail.state).state).calls =
        [StoreCall.update note1.id worldFail.state.currentTitle worldFail.state.currentContent
          (saveCurrentNote worldFail.oracle worldFail.state).oracle.takeTime.1]) :=
  c3_save_lifecycle worldFail.oracle worldFail.state note1 note1 10
    ⟨[false, false], [20]⟩ false ⟨[false], [20]⟩
    (by decide) (by decide) (by decide) (by decide) (by decide) (by decide)

/-- Claim C9 (counterexample): `handleAddNewNote` reads the clock twice
(`createdAt` first, `lastModified` second); on a clock that advances
between the two reads the freshly created note's two timestamps differ,
against the claim that they are always equal. -/
theorem c9_counterexample :
    (stepE (Event.addNew "n9") worldClean).state.notes.head? =
      some ⟨"n9", "Untitled Note", "", some 10, some 20, some "u"⟩ ∧
    (stepE (Event.addNew "n9") worldClean).log =
      [StoreCall.create "Untitled Note" "" 10 20 "u"] ∧
    ((10 : Nat) = 20 → False) := by
  decide

/-- Claim C9 (amended): a created note's `createdAt` and `lastModified`
are the first and second clock reads made at creation; whenever the
clock does not advance between the two reads, the two timestamps of the
freshly created note are equal. -/
theorem c9_create_timestamps (w : World) (uid newId : String)
    (huser : w.state.currentUser = some uid)
    (hclean : w.state.isDirty = false)
    (_hstable : runEffects w.state = w.state)
    (hoks : w.oracle.oks = []) :
    (stepE (Event.addNew newId) w).state.notes.head? =
      some ⟨newId, "Untitled Note", "", some w.oracle.takeTime.1,
        some w.oracle.takeTime.2.takeTime.1, some uid⟩ ∧
    (w.oracle.takeTime.1 = w.oracle.takeTime.2.takeTime.1 →
      ∀ created rest, (stepE (Event.addNew newId) w).state.notes = created :: rest →
        created.createdAt = created.lastModified) := by
  have hspec := handleAddNewNote_clean_spec w.oracle w.state uid newId hclean huser hoks
  constructor
  · show (handleAddNewNote w.oracle newId w.state).state.notes.head? = _
    rw [hspec.2.1]
    rfl
  · intro heq created rest hcr
    have hcr2 : (⟨newId, "Untitled Note", "", some w.oracle.takeTime.1,
        some w.oracle.takeTime.2.takeTime.1, some uid⟩ : Note) :: w.state.notes =
        created :: rest := by
      rw [← hspec.2.1]
      exact hcr
    injection hcr2 with hhead _
    rw [← hhead, heq]

theorem c9_witness :
    (stepE (Event.addNew "n9") worldSame).state.notes.head? =
      some ⟨"n9", "Untitled Note", "", some worldSame.oracle.takeTime.1,
        some worldSame.oracle.takeTime.2.takeTime.1, some "u"⟩ ∧
    (worldSame.oracle.takeTime.1 = worldSame.oracle.takeTime.2.takeTime.1 →
      ∀ created rest, (stepE (Event.addNew "n9") worldSame).state.notes = created :: rest →
        created.createdAt = created.lastModified) :=
  c9_create_timestamps worldSame "u" "n9" (by decide) (by decide) (by decide) (by decide)

theorem applySave_length (i a b : String) (t : Nat) (notes : List Note) :
    (applySave i a b t notes).length = notes.length := by
  unfold applySave
  exact List.length_map _ _

theorem applySave_getElem (i a b : String) (t : Nat) (notes : List Note) (k : Nat) :
    (applySave i a b t notes)[k]? = (notes[k]?).map fun n =>
      if n.id == i then { n with title := a, content := b, lastModified := some t } else n := by
  unfold applySave
  exact List.getElem?_map _ _ _

/-- Claim C10: a successful save modifies exactly the cache entries
whose id equals the selected note's id (replacing title, content and
last-modified); every other entry and every list position is unchanged
— in particular the cache keeps its order and is not re-sorted by
last-modified. -/
theorem c10_save_frame (o : Oracle) (s : AppState) (sel orig : Note) (t : Nat)
    (o1 o2 : Oracle)
    (hsel : s.selectedNote = some sel) (hdirty : s.isDirty = true)
    (hfind : findNote s.notes sel.id = some orig)
    (hdiff : s.currentTitle ≠ orig.title ∨ s.currentContent ≠ orig.content)
    (hto : o.takeTime = (t, o1)) (hok : o1.takeOk = (true, o2)) :
    (saveCurrentNote o s).state.notes.length = s.notes.length ∧
    ∀ (i : Nat) (n : Note), s.notes[i]? = some n →
      (n.id ≠ sel.id → (saveCurrentNote o s).state.notes[i]? = some n) ∧
      (n.id = sel.id → (saveCurrentNote o s).state.notes[i]? =
        some { n with
               title := s.currentTitle,
               content := s.currentContent,
               lastModified := some t }) := by
  have hspec := saveCurrentNote_spec o s sel orig t o1 true o2 hsel hdirty hfind hdiff hto hok
  have hnotes := (hspec.2.2.2.2.2.2.1 rfl).1
  rw [hnotes]
  refine ⟨applySave_length _ _ _ _ _, ?_⟩
  intro i n hin
  constructor
  · intro hne
    rw [applySave_getElem, hin]
    have hne2 : (n.id == sel.id) = false := by
      rw [beq_eq_false_iff_ne]
      exact hne
    simp [hne2]
    intro hh
    exact absurd hh hne
  · intro hid
    rw [applySave_getElem, hin]
    have hid2 : (n.id == sel.id) = true := by
      rw [beq_iff_eq]
      exact hid
    simp [hid2]
    intro hh
    exact absurd hid hh

theorem c10_witness :
    (saveCurrentNote oracleOk worldDirty.state).state.notes.length =
      worldDirty.state.notes.length ∧
    ∀ (i : Nat) (n : Note), worldDirty.state.notes[i]? = some n →
      (n.id ≠ note1.id → (saveCurrentNote oracleOk worldDirty.state).state.notes[i]? = some n) ∧
      (n.id = note1.id → (saveCurrentNote oracleOk worldDirty.state).state.notes[i]? =
        some { n with
               title := worldDirty.state.currentTitle,
               content := worldDirty.state.currentContent,
               lastModified := some 10 }) :=
  c10_save_frame oracleOk worldDirty.state note1 note1 10 ⟨[], [20, 30]⟩ ⟨[], [20, 30]⟩
    (by decide) (by decide) (by decide) (by decide) (by decide) (by decide)

/-- Claim C1: an edit of the title or of the content that changes the
draft and leaves the state Dirty with a selected, present note and no
save in flight (re)starts the 1.5-second debounce window — so every
further such edit cancels and restarts the pending window — and if the
full window then elapses with no further edit, exactly one save is
issued, carrying the draft title and content values present at the
moment inactivity began. -/
theorem c1_debounce (w : World) (sel orig : Note)
    (hdeps : w.state.timerDeps = autosaveDeps w.state)
    (hsel : w.state.selectedNote = some sel)
    (hfind : findNote w.state.notes sel.id = some orig)
    (hsaving : w.state.isSaving = false) :
    (∀ t, t ≠ w.state.currentTitle →
      (t ≠ orig.title ∨ w.state.currentContent ≠ orig.content) →
      (stepE (Event.editTitle t) w).state.isDirty = true ∧
      (stepE (Event.editTitle t) w).state.timer = some debounceMs ∧
      (stepE (Event.elapse debounceMs) (stepE (Event.editTitle t) w)).log =
        (stepE (Event.editTitle t) w).log ++
          [StoreCall.update sel.id t w.state.currentContent
            ((stepE (Event.editTitle t) w).oracle.takeTime.1)]) ∧
    (∀ c, c ≠ w.state.currentContent →
      (w.state.currentTitle ≠ orig.title ∨ c ≠ orig.content) →
      (stepE (Event.editContent c) w).state.isDirty = true ∧
      (stepE (Event.editContent c) w).state.timer = some debounceMs ∧
      (stepE (Event.elapse debounceMs) (stepE (Event.editContent c) w)).log =
        (stepE (Event.editContent c) w).log ++
          [StoreCall.update sel.id w.state.currentTitle c
            ((stepE (Event.editContent c) w).oracle.takeTime.1)]) := by
  constructor
  · intro t ht hdiff
    have hpost := runEffects_of_present { w.state with currentTitle := t } sel orig hsel hfind
    have hdirty1 : (stepE (Event.editTitle t) w).state.isDirty = true := by
      show (runEffects { w.state with currentTitle := t }).isDirty = true
      rw [hpost.2.2.2]
      exact decide_eq_true hdiff
    have htimer : (stepE (Event.editTitle t) w).state.timer = some debounceMs := by
      show (runEffects { w.state with currentTitle := t }).timer = some debounceMs
      apply runEffects_timer_armed { w.state with currentTitle := t } sel orig hsel hfind hdiff
        hsaving
      intro hEq
      apply ht
      have h2 := congrArg AutosaveDeps.currentTitle hEq
      have h3 : ({ w.state with currentTitle := t } : AppState).timerDeps =
          autosaveDeps w.state := hdeps
      rw [h3] at h2
      exact h2
    refine ⟨hdirty1, htimer, ?_⟩
    have h1 : (stepE (Event.editTitle t) w).state.currentTitle = t := hpost.2.1
    have h2 : (stepE (Event.editTitle t) w).state.currentContent = w.state.currentContent :=
      hpost.2.2.1
    show (stepE (Event.editTitle t) w).log ++
      (elapse (stepE (Event.editTitle t) w).oracle debounceMs
        (stepE (Event.editTitle t) w).state).calls = _
    rw [elapse_debounce_calls _ _ sel htimer hpost.1 hdirty1, h1, h2]
  · intro c hc hdiff
    have hpost := runEffects_of_present { w.state with currentContent := c } sel orig hsel hfind
    have hdirty1 : (stepE (Event.editContent c) w).state.isDirty = true := by
      show (runEffects { w.state with currentContent := c }).isDirty = true
      rw [hpost.2.2.2]
      exact decide_eq_true hdiff
    have htimer : (stepE (Event.editContent c) w).state.timer = some debounceMs := by
      show (runEffects { w.state with currentContent := c }).timer = some debounceMs
      apply runEffects_timer_armed { w.state with currentContent := c } sel orig hsel hfind
        hdiff hsaving
      intro hEq
      apply hc
      have h2 := congrArg AutosaveDeps.currentContent hEq
      have h3 : ({ w.state with currentContent := c } : AppState).timerDeps =
          autosaveDeps w.state := hdeps
      rw [h3] at h2
      exact h2
    refine ⟨hdirty1, htimer, ?_⟩
    have h1 : (stepE (Event.editContent c) w).state.currentTitle = w.state.currentTitle :=
      hpost.2.1
    have h2 : (stepE (Event.editContent c) w).state.currentContent = c := hpost.2.2.1
    show (stepE (Event.editContent c) w).log ++
      (elapse (stepE (Event.editContent c) w).oracle debounceMs
        (stepE (Event.editContent c) w).state).calls = _
    rw [elapse_debounce_calls _ _ sel htimer hpost.1 hdirty1, h1, h2]

theorem c1_witness :
    (stepE (Event.editTitle "B") worldClean).state.isDirty = true ∧
    (stepE (Event.editTitle "B") worldClean).state.timer = some debounceMs ∧
    (stepE (Event.elapse debounceMs) (stepE (Event.editTitle "B") worldClean)).log =
      (stepE (Event.editTitle "B") worldClean).log ++
        [StoreCall.update note1.id "B" worldClean.state.currentContent
          ((stepE (Event.editTitle "B") worldClean).oracle.takeTime.1)] :=
  (c1_debounce worldClean note1 note1 (by decide) (by decide) (by decide) (by decide)).1
    "B" (by decide) (by decide)

/-- Claim C5: for every New-note operation with a logged-in user and a
store on which every call succeeds: if the draft is Clean, a single
create call with title "Untitled Note", empty content and the current
user's id is issued, the created note is inserted at the front of the
cache and immediately selected with a Clean draft; if the draft is
Dirty on a selected note (whose id differs from the fresh id), it is
flushed first — the update call precedes the create call in the log —
and the created note is inserted at the front of the cache and
selected with a Clean draft; additionally the stale closure invoked at
App.tsx line 190 re-saves the previous note after the create with a
fourth clock read, so the log ends [update, create, update] and the
previous note's cache entry carries the later timestamp. -/
theorem c5_add_new_note (w : World) (uid newId : String)
    (huser : w.state.currentUser = some uid)
    (_hstable : runEffects w.state = w.state)
    (hoks : w.oracle.oks = []) :
    (w.state.isDirty = false →
      (stepE (Event.addNew newId) w).log =
        w.log ++ [StoreCall.create "Untitled Note" "" w.oracle.takeTime.1
          w.oracle.takeTime.2.takeTime.1 uid] ∧
      (stepE (Event.addNew newId) w).state.notes =
        (⟨newId, "Untitled Note", "", some w.oracle.takeTime.1,
          some w.oracle.takeTime.2.takeTime.1, some uid⟩ : Note) :: w.state.notes ∧
      (stepE (Event.addNew newId) w).state.selectedNote =
        some ⟨newId, "Untitled Note", "", some w.oracle.takeTime.1,
          some w.oracle.takeTime.2.takeTime.1, some uid⟩ ∧
      (stepE (Event.addNew newId) w).state.currentTitle = "Untitled Note" ∧
      (stepE (Event.addNew newId) w).state.currentContent = "" ∧
      (stepE (Event.addNew newId) w).state.isDirty = false) ∧
    (∀ sel, w.state.selectedNote = some sel → w.state.isDirty = true → sel.id ≠ newId →
      (stepE (Event.addNew newId) w).log =
        w.log ++ [StoreCall.update sel.id w.state.currentTitle w.state.currentContent
            w.oracle.takeTime.1,
          StoreCall.create "Untitled Note" "" w.oracle.takeTime.2.takeTime.1
            w.oracle.takeTime.2.takeTime.2.takeTime.1 uid,
          StoreCall.update sel.id w.state.currentTitle w.state.currentContent
            w.oracle.takeTime.2.takeTime.2.takeTime.2.takeTime.1] ∧
      (stepE (Event.addNew newId) w).state.notes =
        (⟨newId, "Untitled Note", "", some w.oracle.takeTime.2.takeTime.1,
          some w.oracle.takeTime.2.takeTime.2.takeTime.1, some uid⟩ : Note) ::
          applySave sel.id w.state.currentTitle w.state.currentContent
            w.oracle.takeTime.2.takeTime.2.takeTime.2.takeTime.1 w.state.notes ∧
      (stepE (Event.addNew newId) w).state.selectedNote =
        some ⟨newId, "Untitled Note", "", some w.oracle.takeTime.2.takeTime.1,
          some w.oracle.takeTime.2.takeTime.2.takeTime.1, some uid⟩ ∧
      (stepE (Event.addNew newId) w).state.currentTitle = "Untitled Note" ∧
      (stepE (Event.addNew newId) w).state.currentContent = "" ∧
      (stepE (Event.addNew newId) w).state.isDirty = false) := by
  constructor
  · intro hclean
    have hspec := handleAddNewNote_clean_spec w.oracle w.state uid newId hclean huser hoks
    refine ⟨?_, hspec.2.1, hspec.2.2.1, hspec.2.2.2.1, hspec.2.2.2.2.1, hspec.2.2.2.2.2.1⟩
    show w.log ++ (handleAddNewNote w.oracle newId w.state).calls = _
    rw [hspec.1]
  · intro sel hsel hdirty hne
    have hspec := handleAddNewNote_dirty_spec w.oracle w.state sel uid newId
      hsel hdirty hne huser hoks
    refine ⟨?_, hspec.2.1, hspec.2.2.1, hspec.2.2.2.1, hspec.2.2.2.2.1, hspec.2.2.2.2.2.1⟩
    show w.log ++ (handleAddNewNote w.oracle newId w.state).calls = _
    rw [hspec.1]

/-- Claim C4: requesting a delete only records the pending id and opens
the confirmation modal, mutating nothing else and issuing no store
call; canceling closes the modal and clears the pending id with no
other side effect; confirming issues exactly one store delete, removes
the entries with that id from the local cache, clears the pending id
and modal, and, if the deleted id equals the selected note's id, clears
the draft to Empty. -/
theorem c4_delete_two_phase (w : World) (nid : String)
    (hstable : runEffects w.state = w.state)
    (hoks : w.oracle.oks = []) :
    (stepE (Event.requestDelete nid) w).state =
      { w.state with noteToDelete := some nid, showDeleteModal := true } ∧
    (stepE (Event.requestDelete nid) w).log = w.log ∧
    (stepE Event.cancelDelete (stepE (Event.requestDelete nid) w)).state =
      { w.state with noteToDelete := none, showDeleteModal := false } ∧
    (stepE Event.cancelDelete (stepE (Event.requestDelete nid) w)).log = w.log ∧
    (stepE Event.confirmDelete (stepE (Event.requestDelete nid) w)).log =
      w.log ++ [StoreCall.delete nid] ∧
    (stepE Event.confirmDelete (stepE (Event.requestDelete nid) w)).state.notes =
      w.state.notes.filter (fun n => n.id != nid) ∧
    (stepE Event.confirmDelete (stepE (Event.requestDelete nid) w)).state.noteToDelete
      = none ∧
    (stepE Event.confirmDelete (stepE (Event.requestDelete nid) w)).state.showDeleteModal
      = false ∧
    (∀ sel, w.state.selectedNote = some sel → sel.id = nid →
      (stepE Event.confirmDelete (stepE (Event.requestDelete nid) w)).state.selectedNote
        = none ∧
      (stepE Event.confirmDelete (stepE (Event.requestDelete nid) w)).state.currentTitle
        = "" ∧
      (stepE Event.confirmDelete (stepE (Event.requestDelete nid) w)).state.currentContent
        = "" ∧
      (stepE Event.confirmDelete (stepE (Event.requestDelete nid) w)).state.isDirty
        = false) := by
  have hreq : (stepE (Event.requestDelete nid) w).state =
      { w.state with noteToDelete := some nid, showDeleteModal := true } := by
    show runEffects (handleDeleteNote nid w.state) = _
    unfold handleDeleteNote
    rw [runEffects_pm, hstable]
  have hcancel : (stepE Event.cancelDelete (stepE (Event.requestDelete nid) w)).state =
      { w.state with noteToDelete := none, showDeleteModal := false } := by
    show runEffects (handleCloseDeleteModal (stepE (Event.requestDelete nid) w).state) = _
    rw [hreq]
    unfold handleCloseDeleteModal
    rw [runEffects_pm, runEffects_pm, hstable]
  have hspecD := handleConfirmDelete_spec w.oracle
    { w.state with noteToDelete := some nid, showDeleteModal := true } nid rfl hoks
  have hstep : stepE Event.confirmDelete (stepE (Event.requestDelete nid) w) =
      World.app (stepE (Event.requestDelete nid) w)
        (handleConfirmDelete w.oracle
          { w.state with noteToDelete := some nid, showDeleteModal := true }) := by
    show World.app _ (handleConfirmDelete (stepE (Event.requestDelete nid) w).oracle
      (stepE (Event.requestDelete nid) w).state) = _
    rw [hreq]
    rfl
  refine ⟨hreq, rfl, hcancel, rfl, ?_, ?_, ?_, ?_, ?_⟩
  · rw [hstep]
    show w.log ++ (handleConfirmDelete w.oracle
      { w.state with noteToDelete := some nid, showDeleteModal := true }).calls = _
    rw [hspecD.1]
  · rw [hstep]
    exact hspecD.2.1
  · rw [hstep]
    exact hspecD.2.2.1
  · rw [hstep]
    exact hspecD.2.2.2.1
  · intro sel hsel hid
    rcases stable_find_of_selected w.state sel hstable hsel with ⟨orig, hfind⟩
    have hs1 := (runEffects_of_present
      { w.state with noteToDelete := some nid, showDeleteModal := true, isSaving := true }
      sel orig hsel hfind).1
    have hclause := hspecD.2.2.2.2 sel hs1 hid
    rw [hstep]
    exact hclause

theorem c4_witness :
    (stepE (Event.requestDelete "n1") worldClean).state =
      { worldClean.state with noteToDelete := some "n1", showDeleteModal := true } ∧
    (stepE (Event.requestDelete "n1") worldClean).log = worldClean.log ∧
    (stepE Event.cancelDelete (stepE (Event.requestDelete "n1") worldClean)).state =
      { worldClean.state with noteToDelete := none, showDeleteModal := false } ∧
    (stepE Event.cancelDelete (stepE (Event.requestDelete "n1") worldClean)).log =
      worldClean.log ∧
    (stepE Event.confirmDelete (stepE (Event.requestDelete "n1") worldClean)).log =
      worldClean.log ++ [StoreCall.delete "n1"] ∧
    (stepE Event.confirmDelete (stepE (Event.requestDelete "n1") worldClean)).state.notes =
      worldClean.state.notes.filter (fun n => n.id != "n1") ∧
    (stepE Event.confirmDelete
      (stepE (Event.requestDelete "n1") worldClean)).state.noteToDelete = none ∧
    (stepE Event.confirmDelete
      (stepE (Event.requestDelete "n1") worldClean)).state.showDeleteModal = false ∧
    (∀ sel, worldClean.state.selectedNote = some sel → sel.id = "n1" →
      (stepE Event.confirmDelete
        (stepE (Event.requestDelete "n1") worldClean)).state.selectedNote = none ∧
      (stepE Event.confirmDelete
        (stepE (Event.requestDelete "n1") worldClean)).state.currentTitle = "" ∧
      (stepE Event.confirmDelete
        (stepE (Event.requestDelete "n1") worldClean)).state.currentContent = "" ∧
      (stepE Event.confirmDelete
        (stepE (Event.requestDelete "n1") worldClean)).state.isDirty = false) :=
  c4_delete_two_phase worldClean "n1" (by decide) (by decide)

theorem c5_witness :
    (stepE (Event.addNew "n9") worldDirty).log =
      worldDirty.log ++ [StoreCall.update note1.id worldDirty.state.currentTitle
          worldDirty.state.currentContent worldDirty.oracle.takeTime.1,
        StoreCall.create "Untitled Note" "" worldDirty.oracle.takeTime.2.takeTime.1
          worldDirty.oracle.takeTime.2.takeTime.2.takeTime.1 "u",
        StoreCall.update note1.id worldDirty.state.currentTitle
          worldDirty.state.currentContent
          worldDirty.oracle.takeTime.2.takeTime.2.takeTime.2.takeTime.1] ∧
    (stepE (Event.addNew "n9") worldDirty).state.selectedNote =
      some ⟨"n9", "Untitled Note", "", some worldDirty.oracle.takeTime.2.takeTime.1,
        some worldDirty.oracle.takeTime.2.takeTime.2.takeTime.1, some "u"⟩ :=
  ⟨((c5_add_new_note worldDirty "u" "n9" (by decide) (by decide) (by decide)).2 note1
      (by decide) (by decide) (by decide)).1,
    ((c5_add_new_note worldDirty "u" "n9" (by decide) (by decide) (by decide)).2 note1
      (by decide) (by decide) (by decide)).2.2.1⟩

end Notepad
